import Mathlib

/-!
Shallow embedding of the satisatang ledger engine (MongoDB-backed personal
finance service, `services/mongodb.go` as listed in `README_DEPLOY.md`, and the
LINE webhook dispatcher `handlers/line_webhook.go`).

Modelling conventions:
* `float64` money amounts are modelled as `ℚ`.
* Mongo ObjectIDs are modelled as naturals drawn from a fresh-id counter in the
  state; the empty `transfer_id` string is modelled as `none`.
* The `daily_records` collection is a list of `DailyRecord`s; `FindOne` is
  `List.find?` (first match in insertion order), `InsertOne` appends,
  `UpdateOne` rewrites the first matching document.
* `UpdateOne`'s `ModifiedCount` is nonzero exactly when a document matched the
  filter whenever the update carries `$set {updatedAt: time.Now()}` (the fresh
  timestamp always differs from the stored one, so a matched document is always
  modified).  `updatedAt`/`createdAt` timestamps themselves are not modelled.
* Functions that in Go return an `error` return a `Bool` here (`true` = `nil`
  error); the state they have written before failing is kept, as in Mongo.
-/

set_option autoImplicit false

namespace SataSatang

/-- The reserved transfer category marker (Thai "transfer money"),
string literal `"โอนเงิน"` in the source. -/
def transferCategory : String := "โอนเงิน"

/-- `Transaction` (mongodb service): a single income or expense entry.
`type` is `1` for income, `-1` for expense; `imagebase64` and timestamps are
not modelled. -/
structure Transaction where
  id : Nat
  type : Int
  custName : String
  amount : ℚ
  category : String
  description : String
  useType : Int
  bankName : String
  creditCardName : String
  transferID : Option Nat
  deriving Repr, DecidableEq

/-- `DailyRecord`: one per (user, date), with cached totals. -/
structure DailyRecord where
  lineID : String
  date : String
  incomes : List Transaction
  expenses : List Transaction
  totalIncome : ℚ
  totalExpense : ℚ
  deriving Repr, DecidableEq

/-- `TransactionData` (gemini.go): the AI-classified entry payload.
`Items` (receipt line items) is never read by the ledger engine and is not
modelled. -/
structure TransactionData where
  date : String
  merchant : String
  amount : ℚ
  category : String
  type : String
  description : String
  useType : Int
  bankName : String
  creditCardName : String
  deriving Repr, DecidableEq

/-- `TransferEntry` (gemini.go): one source or destination leg. -/
structure TransferEntry where
  amount : ℚ
  useType : Int
  bankName : String
  creditCardName : String
  deriving Repr, DecidableEq

/-- `TransferData` (gemini.go).  The Go fields `From`/`To` are renamed
`fromLegs`/`toLegs` because `from` is a Lean keyword. -/
structure TransferData where
  fromLegs : List TransferEntry
  toLegs : List TransferEntry
  description : String
  deriving Repr, DecidableEq

/-- `TransferEntryDB` (mongodb service). -/
structure TransferEntryDB where
  amount : ℚ
  useType : Int
  bankName : String
  creditCardName : String
  deriving Repr, DecidableEq

/-- `TransferRecord` (mongodb service), the persisted transfer document. -/
structure TransferRecord where
  id : Nat
  lineID : String
  date : String
  description : String
  fromLegs : List TransferEntryDB
  toLegs : List TransferEntryDB
  totalAmount : ℚ
  deriving Repr, DecidableEq

/-- `Budget`: one per (user, category). -/
structure Budget where
  lineID : String
  category : String
  amount : ℚ
  deriving Repr, DecidableEq

/-- The persistent state: the `daily_records`, `transfers` and `budgets`
collections, plus the fresh ObjectID supply. -/
structure LedgerState where
  records : List DailyRecord
  transfers : List TransferRecord
  budgets : List Budget
  nextID : Nat
  deriving Repr, DecidableEq

/-- The empty database. -/
def LedgerState.init : LedgerState := { records := [], transfers := [], budgets := [], nextID := 0 }

/-- The filter `{lineid: u, date: d}`. -/
def matchesUserDate (u d : String) (r : DailyRecord) : Bool :=
  r.lineID == u && r.date == d

/-- `UpdateOne`: rewrite the first list element satisfying `p`. -/
def updateFirst {α : Type} (p : α → Bool) (f : α → α) : List α → List α
  | [] => []
  | x :: xs => if p x then f x :: xs else x :: updateFirst p f xs

/-- Sign of a `TransactionData`: `txType := -1; if tx.Type == "income" { txType = 1 }`. -/
def txSign (tx : TransactionData) : Int :=
  if tx.type == "income" then 1 else -1

/-- The `Transaction` document built by `SaveTransaction` /
`saveTransactionWithTransferID`. -/
def mkTransaction (id : Nat) (tx : TransactionData) (tid : Option Nat) : Transaction :=
  { id := id, type := txSign tx, custName := tx.merchant, amount := tx.amount,
    category := tx.category, description := tx.description, useType := tx.useType,
    bankName := tx.bankName, creditCardName := tx.creditCardName, transferID := tid }

/-- The `$push`/`$inc` update of the save path: append the entry to the list
matching its sign and increment that cached total. -/
def pushEntry (tx : TransactionData) (newTx : Transaction) (r : DailyRecord) : DailyRecord :=
  if txSign tx = 1 then
    { r with incomes := r.incomes ++ [newTx], totalIncome := r.totalIncome + tx.amount }
  else
    { r with expenses := r.expenses ++ [newTx], totalExpense := r.totalExpense + tx.amount }

/-- Common body of `SaveTransaction` and `saveTransactionWithTransferID`
(the source duplicates this code verbatim; `tid` is `none` in the former):
find today's record, create it with the single entry if absent, else `$push`
the entry and `$inc` the matching cached total.  Returns the new entry id. -/
def saveTransactionCore (s : LedgerState) (u : String) (tx : TransactionData)
    (tid : Option Nat) (today : String) : Nat × LedgerState :=
  let newTx := mkTransaction s.nextID tx tid
  match s.records.find? (matchesUserDate u today) with
  | none =>
    let rec0 : DailyRecord :=
      if txSign tx = 1 then
        { lineID := u, date := today, incomes := [newTx], expenses := [],
          totalIncome := tx.amount, totalExpense := 0 }
      else
        { lineID := u, date := today, incomes := [], expenses := [newTx],
          totalIncome := 0, totalExpense := tx.amount }
    (s.nextID, { s with records := s.records ++ [rec0], nextID := s.nextID + 1 })
  | some _ =>
    (s.nextID,
      { s with records := updateFirst (matchesUserDate u today) (pushEntry tx newTx) s.records,
               nextID := s.nextID + 1 })

/-- `SaveTransaction`. -/
def SaveTransaction (s : LedgerState) (u : String) (tx : TransactionData)
    (today : String) : Nat × LedgerState :=
  saveTransactionCore s u tx none today

/-- `saveTransactionWithTransferID`. -/
def saveTransactionWithTransferID (s : LedgerState) (u : String) (tx : TransactionData)
    (tid : Nat) (today : String) : Nat × LedgerState :=
  saveTransactionCore s u tx (some tid) today

/-- The `$set` of `recalculateTotals`: overwrite the cached totals with the
re-summed lists. -/
def resumRecord (r : DailyRecord) : DailyRecord :=
  { r with totalIncome := (r.incomes.map (·.amount)).sum,
           totalExpense := (r.expenses.map (·.amount)).sum }

/-- `recalculateTotals`: reload the day record (error when absent — this error
is what the delete operations return), re-sum both lists, overwrite the cached
totals.  No category is excluded here. -/
def recalculateTotals (s : LedgerState) (u d : String) : LedgerState × Bool :=
  match s.records.find? (matchesUserDate u d) with
  | none => (s, false)
  | some _ =>
    ({ s with records := updateFirst (matchesUserDate u d) resumRecord s.records }, true)

/-- The `$pull {incomes: {_id: id}}` update on a day record. -/
def pullIncomeID (txID : Nat) (r : DailyRecord) : DailyRecord :=
  { r with incomes := r.incomes.filter (fun tx => tx.id != txID) }

/-- The `$pull {expenses: {_id: id}}` update on a day record. -/
def pullExpenseID (txID : Nat) (r : DailyRecord) : DailyRecord :=
  { r with expenses := r.expenses.filter (fun tx => tx.id != txID) }

/-- `DeleteTransaction`: `$pull` the id from today's `incomes`; only when no
document matched the `{lineid, date}` filter (`ModifiedCount == 0`, see the
header note on `updatedAt`) is the `expenses` pull attempted; then
`recalculateTotals` for today.  ObjectID hex parsing is not modelled. -/
def DeleteTransaction (s : LedgerState) (u : String) (txID : Nat)
    (today : String) : LedgerState × Bool :=
  let matched := (s.records.find? (matchesUserDate u today)).isSome
  let recs1 := updateFirst (matchesUserDate u today) (pullIncomeID txID) s.records
  let s1 := { s with records := recs1 }
  let recs2 := updateFirst (matchesUserDate u today) (pullExpenseID txID) s1.records
  let s2 := if matched then s1 else { s1 with records := recs2 }
  recalculateTotals s2 u today

/-- `BalanceSummary`. -/
structure BalanceSummary where
  totalIncome : ℚ
  totalExpense : ℚ
  balance : ℚ
  todayIncome : ℚ
  todayExpense : ℚ
  todayBalance : ℚ
  deriving Repr, DecidableEq

/-- All records of one user, in collection order. -/
def userRecords (s : LedgerState) (u : String) : List DailyRecord :=
  s.records.filter (fun r => r.lineID == u)

/-- Sum of the amounts of the entries whose category is not the reserved
transfer marker (the `if tx.Category == "โอนเงิน" { continue }` loops). -/
def nonTransferSum (txs : List Transaction) : ℚ :=
  ((txs.filter (fun tx => tx.category != transferCategory)).map (·.amount)).sum

/-- `GetBalanceSummary`: scan all of the user's records, sum non-transfer
entries; the `today*` fields accumulate only when `record.Date == today`. -/
def GetBalanceSummary (s : LedgerState) (u today : String) : BalanceSummary :=
  let rs := userRecords s u
  let totalIncome := (rs.map (fun r => nonTransferSum r.incomes)).sum
  let totalExpense := (rs.map (fun r => nonTransferSum r.expenses)).sum
  let todayIncome := ((rs.filter (fun r => r.date == today)).map
      (fun r => nonTransferSum r.incomes)).sum
  let todayExpense := ((rs.filter (fun r => r.date == today)).map
      (fun r => nonTransferSum r.expenses)).sum
  { totalIncome := totalIncome, totalExpense := totalExpense,
    balance := totalIncome - totalExpense,
    todayIncome := todayIncome, todayExpense := todayExpense,
    todayBalance := todayIncome - todayExpense }

/-- `GetTransactionByID`: find today's record, then scan `expenses` first,
then `incomes`. -/
def GetTransactionByID (s : LedgerState) (u : String) (txID : Nat)
    (today : String) : Option Transaction :=
  match s.records.find? (matchesUserDate u today) with
  | none => none
  | some r =>
    match r.expenses.find? (fun tx => tx.id == txID) with
    | some tx => some tx
    | none => r.incomes.find? (fun tx => tx.id == txID)

/-- `{"expenses.$.amount": amount}` / `{"incomes.$.amount": amount}`. -/
def setAmountTx (amount : ℚ) (tx : Transaction) : Transaction :=
  { tx with amount := amount }

/-- The `$set` of `UpdateTransactionPayment` on the positional element. -/
def setPaymentTx (useType : Int) (bankName creditCardName : String)
    (tx : Transaction) : Transaction :=
  { tx with useType := useType, bankName := bankName, creditCardName := creditCardName }

/-- Positional (`$`) update: rewrite the first expense with the given id. -/
def setFirstExpense (txID : Nat) (f : Transaction → Transaction) (r : DailyRecord) :
    DailyRecord :=
  { r with expenses := updateFirst (fun tx => tx.id == txID) f r.expenses }

/-- Positional (`$`) update: rewrite the first income with the given id. -/
def setFirstIncome (txID : Nat) (f : Transaction → Transaction) (r : DailyRecord) :
    DailyRecord :=
  { r with incomes := updateFirst (fun tx => tx.id == txID) f r.incomes }

/-- Filter `{lineid, date, "expenses._id": id}`: a document with a matching
expense element. -/
def hasExpenseWithID (u today : String) (txID : Nat) (r : DailyRecord) : Bool :=
  matchesUserDate u today r && r.expenses.any (fun tx => tx.id == txID)

/-- Filter `{lineid, date, "incomes._id": id}`. -/
def hasIncomeWithID (u today : String) (txID : Nat) (r : DailyRecord) : Bool :=
  matchesUserDate u today r && r.incomes.any (fun tx => tx.id == txID)

/-- `UpdateTransactionAmount`: positional update of the first matching
*expense* element of the first document whose `expenses._id` matches; only if
no document matched is the *incomes* try made; then `recalculateTotals` for
today (whose error is the one returned). -/
def UpdateTransactionAmount (s : LedgerState) (u : String) (txID : Nat)
    (amount : ℚ) (today : String) : LedgerState × Bool :=
  let recsE := updateFirst (hasExpenseWithID u today txID)
    (setFirstExpense txID (setAmountTx amount)) s.records
  let recsI := updateFirst (hasIncomeWithID u today txID)
    (setFirstIncome txID (setAmountTx amount)) s.records
  let s1 :=
    if (s.records.find? (hasExpenseWithID u today txID)).isSome then
      { s with records := recsE }
    else
      { s with records := recsI }
  recalculateTotals s1 u today

/-- `UpdateTransactionPayment`: same expenses-then-incomes order, setting the
payment-method fields of the first matching element; no recalculation (totals
are amount-derived); returns `GetTransactionByID` on the updated state. -/
def UpdateTransactionPayment (s : LedgerState) (u : String) (txID : Nat)
    (useType : Int) (bankName creditCardName : String)
    (today : String) : LedgerState × Option Transaction :=
  let recsE := updateFirst (hasExpenseWithID u today txID)
    (setFirstExpense txID (setPaymentTx useType bankName creditCardName)) s.records
  let recsI := updateFirst (hasIncomeWithID u today txID)
    (setFirstIncome txID (setPaymentTx useType bankName creditCardName)) s.records
  let s1 :=
    if (s.records.find? (hasExpenseWithID u today txID)).isSome then
      { s with records := recsE }
    else
      { s with records := recsI }
  (s1, GetTransactionByID s1 u txID today)

/-- The `TransactionData` that `SaveTransfer` builds for one leg
(`kind` is `"expense"` for a `from` leg, `"income"` for a `to` leg). -/
def legTxData (kind desc : String) (e : TransferEntry) : TransactionData :=
  { date := "", merchant := "", amount := e.amount, category := transferCategory,
    type := kind, description := desc, useType := e.useType, bankName := e.bankName,
    creditCardName := e.creditCardName }

/-- The `for _, entry := range ...` loops of `SaveTransfer`: save one tagged
transaction per leg, collecting the new ids. -/
def saveLegs (u : String) (tid : Nat) (kind desc today : String) :
    LedgerState → List TransferEntry → List Nat × LedgerState
  | s, [] => ([], s)
  | s, e :: es =>
    let r1 := saveTransactionWithTransferID s u (legTxData kind desc e) tid today
    let rest := saveLegs u tid kind desc today r1.2 es
    (r1.1 :: rest.1, rest.2)

/-- `TransferEntry` → `TransferEntryDB` conversion. -/
def toEntryDB (e : TransferEntry) : TransferEntryDB :=
  { amount := e.amount, useType := e.useType, bankName := e.bankName,
    creditCardName := e.creditCardName }

/-- `SaveTransfer`: insert the `TransferRecord` (total = sum of the `from`
amounts), then one expense transaction per `from` leg and one income
transaction per `to` leg, all tagged with the transfer id and the reserved
category; returns the transfer id and the generated transaction ids. -/
def SaveTransfer (s : LedgerState) (u : String) (t : TransferData)
    (today : String) : Nat × List Nat × LedgerState :=
  let totalAmount := (t.fromLegs.map (·.amount)).sum
  let tid := s.nextID
  let transferRecord : TransferRecord :=
    { id := tid, lineID := u, date := today, description := t.description,
      fromLegs := t.fromLegs.map toEntryDB, toLegs := t.toLegs.map toEntryDB,
      totalAmount := totalAmount }
  let s0 := { s with transfers := s.transfers ++ [transferRecord], nextID := s.nextID + 1 }
  let fromSaved := saveLegs u tid "expense" t.description today s0 t.fromLegs
  let toSaved := saveLegs u tid "income" t.description today fromSaved.2 t.toLegs
  (tid, fromSaved.1 ++ toSaved.1, toSaved.2)

/-- The `$pull {incomes: {transfer_id: tid}}` update on a day record. -/
def pullIncomeTID (tid : Nat) (r : DailyRecord) : DailyRecord :=
  { r with incomes := r.incomes.filter (fun tx => tx.transferID != some tid) }

/-- The `$pull {expenses: {transfer_id: tid}}` update on a day record. -/
def pullExpenseTID (tid : Nat) (r : DailyRecord) : DailyRecord :=
  { r with expenses := r.expenses.filter (fun tx => tx.transferID != some tid) }

/-- `DeleteTransfer`: `$pull` the tagged entries from *today's* record only
(both pulls use the `{lineid, date: today}` filter), `DeleteOne` the transfer
record, then `recalculateTotals` for today (whose error is the one returned).
ObjectID hex parsing is not modelled. -/
def DeleteTransfer (s : LedgerState) (u : String) (tid : Nat)
    (today : String) : LedgerState × Bool :=
  let recs1 := updateFirst (matchesUserDate u today) (pullIncomeTID tid) s.records
  let s1 := { s with records := recs1 }
  let recs2 := updateFirst (matchesUserDate u today) (pullExpenseTID tid) s1.records
  let s2 := { s1 with records := recs2 }
  let s3 := { s2 with transfers := s2.transfers.eraseP (fun tr => tr.id == tid) }
  recalculateTotals s3 u today

/-- `SetBudget`: upsert on `{lineid, category}`. -/
def SetBudget (s : LedgerState) (u cat : String) (amount : ℚ) : LedgerState :=
  let p : Budget → Bool := fun b => b.lineID == u && b.category == cat
  if (s.budgets.find? p).isSome then
    { s with budgets := updateFirst p (fun b => { b with amount := amount }) s.budgets }
  else
    { s with budgets := s.budgets ++ [{ lineID := u, category := cat, amount := amount }] }

/-- `GetBudget`: `nil, nil` when absent, modelled as `none`. -/
def GetBudget (s : LedgerState) (u cat : String) : Option Budget :=
  s.budgets.find? (fun b => b.lineID == u && b.category == cat)

/-- `DeleteBudget` (`DeleteOne`). -/
def DeleteBudget (s : LedgerState) (u cat : String) : LedgerState :=
  { s with budgets := s.budgets.eraseP (fun b => b.lineID == u && b.category == cat) }

/-- The fall-back category for uncategorised spending, Thai "other". -/
def otherCategory : String := "อื่นๆ"

/-- Lexicographic comparison of character lists (the Mongo `$lte`/`$gte`
ordering on the `"YYYY-MM-DD"` date strings). -/
def strLeb : List Char → List Char → Bool
  | [], _ => true
  | _ :: _, [] => false
  | a :: as, b :: bs => if a < b then true else if b < a then false else strLeb as bs

/-- `a <= b` on date strings. -/
def dateLE (a b : String) : Bool := strLeb a.data b.data

/-- One step of the `GetMonthlySpendingByCategory` expense loop: empty
category falls back to `otherCategory`, the reserved transfer category is
skipped, otherwise the map entry is incremented (a missing Go map key reads
as `0`, so the map is modelled as a total function). -/
def spendAdd (m : String → ℚ) (tx : Transaction) : String → ℚ :=
  let category := if tx.category == "" then otherCategory else tx.category
  if category == transferCategory then m
  else fun c => if c == category then m c + tx.amount else m c

/-- `GetMonthlySpendingByCategory`: the current-month window
`[first, last]` (in Go, the first/last day of `time.Now()`'s month, formatted
`"2006-01-02"`) is passed explicitly; `date` comparison is lexicographic, as
in the Mongo `$gte/$lte` on the date strings. -/
def GetMonthlySpendingByCategory (s : LedgerState) (u first last : String) :
    String → ℚ :=
  let rs := s.records.filter
    (fun r => r.lineID == u && dateLE first r.date && dateLE r.date last)
  rs.foldl (fun m r => r.expenses.foldl spendAdd m) (fun _ => 0)

/-- The alert message returned by `CheckBudgetAlert`: the over-budget
(`"⚠️ งบหมวด %s เกิน!"`) or near-limit (`"⚡ งบหมวด %s ใกล้หมด!"`) format with its
arguments; the `%.0f` string formatting itself is not modelled. -/
inductive AlertMessage where
  | noMessage : AlertMessage
  | overBudget (category : String) (total budget : ℚ) : AlertMessage
  | nearLimit (category : String) (total budget : ℚ) : AlertMessage
  deriving Repr, DecidableEq

/-- `CheckBudgetAlert`: no budget → silent; otherwise project
`currentSpent + newAmount` (current-month spend *at call time*) against the
budget: above the budget → urgent; else at ≥ 80% → warning; else silent. -/
def CheckBudgetAlert (s : LedgerState) (u category : String) (newAmount : ℚ)
    (first last : String) : Bool × AlertMessage :=
  match GetBudget s u category with
  | none => (false, .noMessage)
  | some budget =>
    let currentSpent := GetMonthlySpendingByCategory s u first last category
    let totalAfterNew := currentSpent + newAmount
    let percentage := totalAfterNew / budget.amount * 100
    if totalAfterNew > budget.amount then
      (true, .overBudget category totalAfterNew budget.amount)
    else if percentage ≥ 80 then
      (true, .nearLimit category totalAfterNew budget.amount)
    else (false, .noMessage)

/-- `PaymentBalance`. -/
structure PaymentBalance where
  useType : Int
  bankName : String
  creditCardName : String
  totalIncome : ℚ
  totalExpense : ℚ
  balance : ℚ
  deriving Repr, DecidableEq

/-- The Go map key `fmt.Sprintf("%d:%s:%s", tx.UseType, tx.BankName,
tx.CreditCardName)`. -/
def paymentKey (tx : Transaction) : String :=
  toString tx.useType ++ ":" ++ tx.bankName ++ ":" ++ tx.creditCardName

/-- The zero-valued group created when a key is first seen. -/
def zeroPB (tx : Transaction) : PaymentBalance :=
  { useType := tx.useType, bankName := tx.bankName, creditCardName := tx.creditCardName,
    totalIncome := 0, totalExpense := 0, balance := 0 }

/-- The per-transaction accumulation: `Balance += amount * type`, then
`TotalIncome += amount` when `type == 1`, else `TotalExpense += amount`. -/
def applyTx (pb : PaymentBalance) (tx : Transaction) : PaymentBalance :=
  let pb1 := { pb with balance := pb.balance + tx.amount * (tx.type : ℚ) }
  if tx.type = 1 then { pb1 with totalIncome := pb1.totalIncome + tx.amount }
  else { pb1 with totalExpense := pb1.totalExpense + tx.amount }

/-- One iteration of the `GetBalanceByPaymentType` loop over `allTx`.  The Go
map is modelled as an insertion-ordered association list. -/
def pbUpdate (l : List (String × PaymentBalance)) (tx : Transaction) :
    List (String × PaymentBalance) :=
  let key := paymentKey tx
  let l1 := if (l.find? (fun kv => kv.1 == key)).isSome then l else l ++ [(key, zeroPB tx)]
  updateFirst (fun kv => kv.1 == key) (fun kv => (kv.1, applyTx kv.2 tx)) l1

/-- `GetBalanceByPaymentType`: fold every entry of every record of the user
(`allTx := append(record.Incomes, record.Expenses...)`, no category
exclusion) into the keyed map.  The Go function finally copies the map into a
slice in nondeterministic map order; the keyed view is kept here. -/
def GetBalanceByPaymentType (s : LedgerState) (u : String) :
    List (String × PaymentBalance) :=
  (userRecords s u).foldl (fun l r => (r.incomes ++ r.expenses).foldl pbUpdate l) []

/-- A keyword/date-range search hit.  The Go `RecordID` field (the Mongo id of
the day record) is not modelled. -/
structure SearchResult where
  transaction : Transaction
  date : String
  deriving Repr, DecidableEq

/-- `strings.HasPrefix` on character lists. -/
def isPrefixB : List Char → List Char → Bool
  | [], _ => true
  | _ :: _, [] => false
  | a :: as, b :: bs => a == b && isPrefixB as bs

/-- `strings.Contains` on character lists: some suffix of the haystack starts
with the needle. -/
def isInfixB (needle : List Char) : List Char → Bool
  | [] => needle.isEmpty
  | c :: rest => isPrefixB needle (c :: rest) || isInfixB needle rest

/-- `strings.ToLower`, on the character list of a string. -/
def lowerStr (s : String) : List Char := s.data.map Char.toLower

/-- `matchesKeyword`: case-insensitive substring match against description,
category and custname (merchant). -/
def matchesKeyword (tx : Transaction) (keyword : String) : Bool :=
  let kw := lowerStr keyword
  isInfixB kw (lowerStr tx.description) ||
  isInfixB kw (lowerStr tx.category) ||
  isInfixB kw (lowerStr tx.custName)

/-- The per-list loop of `SearchTransactions`
(`if matches { append; if len >= limit break }` — note the append happens
before the limit check). -/
def searchTxLoop (kw : String) (limit : Int) (date : String) :
    List Transaction → List SearchResult → List SearchResult
  | [], acc => acc
  | tx :: rest, acc =>
    if matchesKeyword tx kw then
      let acc1 := acc ++ [{ transaction := tx, date := date }]
      if (acc1.length : Int) ≥ limit then acc1 else searchTxLoop kw limit date rest acc1
    else searchTxLoop kw limit date rest acc

/-- The cursor loop of `SearchTransactions`: incomes then expenses of each
record, stopping after a record once the limit is reached. -/
def searchRecordsLoop (kw : String) (limit : Int) :
    List DailyRecord → List SearchResult → List SearchResult
  | [], acc => acc
  | r :: rest, acc =>
    let a1 := searchTxLoop kw limit r.date r.incomes acc
    let a2 := searchTxLoop kw limit r.date r.expenses a1
    if (a2.length : Int) ≥ limit then a2 else searchRecordsLoop kw limit rest a2

/-- `SearchTransactions` over the cursor stream `rs`: in Go, `rs` is the
user's records passing the `$or` regex prefilter, sorted by date descending
(the Mongo query itself is kept abstract — theorems take the stream with its
sortedness as hypotheses).  `limit <= 0` defaults to 20. -/
def SearchTransactions (rs : List DailyRecord) (keyword : String) (limit : Int) :
    List SearchResult :=
  let lim := if limit ≤ 0 then 20 else limit
  searchRecordsLoop keyword lim rs []

/-- The cursor loop of `SearchByDateRange`: *all* incomes and expenses of a
record are appended before the limit is consulted. -/
def dateRangeLoop (limit : Int) :
    List DailyRecord → List SearchResult → List SearchResult
  | [], acc => acc
  | r :: rest, acc =>
    let a1 := acc ++ r.incomes.map (fun tx => { transaction := tx, date := r.date })
                  ++ r.expenses.map (fun tx => { transaction := tx, date := r.date })
    if (a1.length : Int) ≥ limit then a1 else dateRangeLoop limit rest a1

/-- `SearchByDateRange` over the cursor stream `rs`: in Go, `rs` is the user's
records with `startDate <= date <= endDate`, sorted by date descending.
`limit <= 0` defaults to 50. -/
def SearchByDateRange (rs : List DailyRecord) (limit : Int) : List SearchResult :=
  let lim := if limit ≤ 0 then 50 else limit
  dateRangeLoop lim rs []

/-- The `{lineid, date: {$gte, $lte}}` filter of `SearchByDateRange` applied
to the collection (before the date-descending sort). -/
def dateRangeRecords (s : LedgerState) (u startDate endDate : String) :
    List DailyRecord :=
  s.records.filter
    (fun r => r.lineID == u && dateLE startDate r.date && dateLE r.date endDate)

/-- The auto-save loop of `pushTransactionFlexMultiple` (and, for a singleton
batch, `pushTransactionFlex`): `SaveTransaction` for each item in order. -/
def saveAll (u today : String) : LedgerState → List TransactionData → LedgerState
  | s, [] => s
  | s, tx :: rest => saveAll u today (SaveTransaction s u tx today).2 rest

/-- The `case "new"` dispatch of `handleTextMessage`
(handlers/line_webhook.go): items with `amount <= 0` are filtered out; if any
remain they are all saved, and afterwards `CheckBudgetAlert` is run on each
saved item that is an expense with a nonempty category (the returned list; an
alert is pushed to the user only when its flag is true).  If nothing remains,
nothing is saved. -/
def handleNewIntent (s : LedgerState) (u today first last : String)
    (txs : List TransactionData) : LedgerState × List (Bool × AlertMessage) :=
  let valid := txs.filter (fun tx => decide ((0 : ℚ) < tx.amount))
  if valid.isEmpty then (s, [])
  else
    let s1 := saveAll u today s valid
    let alerts := (valid.filter (fun tx => tx.type == "expense" && tx.category != "")).map
      (fun tx => CheckBudgetAlert s1 u tx.category tx.amount first last)
    (s1, alerts)

/-! ## Well-formedness invariants and reachability -/

/-- Entries live in the list matching their sign. -/
def SignsOKr (r : DailyRecord) : Prop :=
  (∀ tx ∈ r.incomes, tx.type = 1) ∧ (∀ tx ∈ r.expenses, tx.type = -1)

/-- The cached day totals agree with the entry lists. -/
def TotalsOKr (r : DailyRecord) : Prop :=
  r.totalIncome = (r.incomes.map (·.amount)).sum ∧
  r.totalExpense = (r.expenses.map (·.amount)).sum

/-- The `{lineid, date}` key of a day record. -/
def recKey (r : DailyRecord) : String × String := (r.lineID, r.date)

def SignsOK (s : LedgerState) : Prop := ∀ r ∈ s.records, SignsOKr r

def TotalsOK (s : LedgerState) : Prop := ∀ r ∈ s.records, TotalsOKr r

/-- At most one day record per (user, date). -/
def UniqueRecords (s : LedgerState) : Prop := (s.records.map recKey).Nodup

def WellFormed (s : LedgerState) : Prop := SignsOK s ∧ TotalsOK s ∧ UniqueRecords s

/-- The states reachable from the empty database through the modelled
operations. -/
inductive Reachable : LedgerState → Prop where
  | init : Reachable .init
  | save (s : LedgerState) (u : String) (tx : TransactionData) (today : String) :
      Reachable s → Reachable (SaveTransaction s u tx today).2
  | deleteTx (s : LedgerState) (u : String) (txID : Nat) (today : String) :
      Reachable s → Reachable (DeleteTransaction s u txID today).1
  | transfer (s : LedgerState) (u : String) (t : TransferData) (today : String) :
      Reachable s → Reachable (SaveTransfer s u t today).2.2
  | removeTransfer (s : LedgerState) (u : String) (tid : Nat) (today : String) :
      Reachable s → Reachable (DeleteTransfer s u tid today).1
  | amend (s : LedgerState) (u : String) (txID : Nat) (amount : ℚ) (today : String) :
      Reachable s → Reachable (UpdateTransactionAmount s u txID amount today).1
  | repay (s : LedgerState) (u : String) (txID : Nat) (useType : Int)
      (bankName creditCardName today : String) :
      Reachable s →
      Reachable (UpdateTransactionPayment s u txID useType bankName creditCardName today).1
  | setBudget (s : LedgerState) (u cat : String) (amount : ℚ) :
      Reachable s → Reachable (SetBudget s u cat amount)
  | removeBudget (s : LedgerState) (u cat : String) :
      Reachable s → Reachable (DeleteBudget s u cat)

/-! ### Generic lemmas about `updateFirst` -/

theorem updateFirst_cons {α : Type} (p : α → Bool) (f : α → α) (x : α) (xs : List α) :
    updateFirst p f (x :: xs) =
      if p x then f x :: xs else x :: updateFirst p f xs := rfl

theorem mem_updateFirst {α : Type} {p : α → Bool} {f : α → α} {l : List α} {x : α}
    (hx : x ∈ updateFirst p f l) : x ∈ l ∨ ∃ y ∈ l, p y = true ∧ x = f y := by
  induction l with
  | nil => simp [updateFirst] at hx
  | cons a as ih =>
    rw [updateFirst_cons] at hx
    by_cases hp : p a = true
    · rw [if_pos hp] at hx
      rcases List.mem_cons.mp hx with h | h
      · exact Or.inr ⟨a, List.mem_cons_self a as, hp, h⟩
      · exact Or.inl (List.mem_cons_of_mem a h)
    · rw [if_neg hp] at hx
      rcases List.mem_cons.mp hx with h | h
      · exact Or.inl (h ▸ List.mem_cons_self a as)
      · rcases ih h with h | ⟨y, hy, hpy, hxy⟩
        · exact Or.inl (List.mem_cons_of_mem a h)
        · exact Or.inr ⟨y, List.mem_cons_of_mem a hy, hpy, hxy⟩

theorem map_updateFirst {α β : Type} (key : α → β) {p : α → Bool} {f : α → α}
    (hf : ∀ x, key (f x) = key x) (l : List α) :
    (updateFirst p f l).map key = l.map key := by
  induction l with
  | nil => rfl
  | cons a as ih =>
    rw [updateFirst_cons]
    by_cases hp : p a = true
    · simp [hp, hf a]
    · simp [hp, ih]

theorem updateFirst_eq_self {α : Type} {p : α → Bool} {f : α → α} {l : List α}
    (h : ∀ x ∈ l, p x = true → f x = x) : updateFirst p f l = l := by
  induction l with
  | nil => rfl
  | cons a as ih =>
    rw [updateFirst_cons]
    by_cases hp : p a = true
    · rw [if_pos hp, h a (List.mem_cons_self a as) hp]
    · rw [if_neg hp, ih (fun x hx => h x (List.mem_cons_of_mem a hx))]

theorem updateFirst_of_forall_neg {α : Type} {p : α → Bool} {f : α → α} {l : List α}
    (h : ∀ x ∈ l, p x = false) : updateFirst p f l = l :=
  updateFirst_eq_self (fun x hx hp => absurd hp (by simp [h x hx]))

theorem find?_updateFirst {α : Type} {p : α → Bool} {f : α → α}
    (hf : ∀ x, p (f x) = p x) (l : List α) :
    (updateFirst p f l).find? p = (l.find? p).map f := by
  induction l with
  | nil => rfl
  | cons a as ih =>
    rw [updateFirst_cons]
    by_cases hp : p a = true
    · rw [if_pos hp]
      rw [List.find?_cons_of_pos _ (by rw [hf]; exact hp), List.find?_cons_of_pos _ hp]
      rfl
    · rw [if_neg hp]
      rw [List.find?_cons_of_neg _ (by simpa using hp), List.find?_cons_of_neg _ (by simpa using hp)]
      exact ih

theorem matchesUserDate_iff {u d : String} {r : DailyRecord} :
    matchesUserDate u d r = true ↔ r.lineID = u ∧ r.date = d := by
  simp [matchesUserDate]

theorem matchesUserDate_iff_key {u d : String} {r : DailyRecord} :
    matchesUserDate u d r = true ↔ recKey r = (u, d) := by
  rw [matchesUserDate_iff]
  simp [recKey, Prod.ext_iff]

theorem forall_updateFirst {α : Type} {P : α → Prop} {p : α → Bool} {f : α → α} {l : List α}
    (h : ∀ x ∈ l, P x) (hf : ∀ x ∈ l, p x = true → P (f x)) :
    ∀ x ∈ updateFirst p f l, P x := by
  intro x hx
  rcases mem_updateFirst hx with h1 | ⟨y, hy, hpy, hxy⟩
  · exact h x h1
  · exact hxy ▸ hf y hy hpy

theorem txSign_cases (tx : TransactionData) : txSign tx = 1 ∨ txSign tx = -1 := by
  unfold txSign
  by_cases h : tx.type == "income" <;> simp [h]

/-- A record touched only through a key-preserving update keeps correct totals
at every position that does not match the `(u, d)` filter. -/
theorem totalsOKr_updateFirst_nonmatching {u d : String} (p : DailyRecord → Bool)
    (f : DailyRecord → DailyRecord)
    (hkey : ∀ r, recKey (f r) = recKey r)
    (himp : ∀ r, p r = true → matchesUserDate u d r = true)
    {l : List DailyRecord}
    (h : ∀ r ∈ l, matchesUserDate u d r = false → TotalsOKr r) :
    ∀ r ∈ updateFirst p f l, matchesUserDate u d r = false → TotalsOKr r := by
  intro r hr hm
  rcases mem_updateFirst hr with h1 | ⟨y, hy, hpy, hxy⟩
  · exact h r h1 hm
  · exfalso
    have hky : recKey y = (u, d) := matchesUserDate_iff_key.mp (himp y hpy)
    have : matchesUserDate u d r = true :=
      matchesUserDate_iff_key.mpr (by rw [hxy, hkey, hky])
    simp [this] at hm

/-- `resumRecord` makes the totals of the touched record correct; with unique
keys every record after `updateFirst` with the `(u, d)` filter has correct
totals, provided the untouched ones already did. -/
theorem totalsOKr_updateFirst_resum {u d : String} :
    ∀ (l : List DailyRecord), (l.map recKey).Nodup →
      (∀ r ∈ l, matchesUserDate u d r = false → TotalsOKr r) →
      ∀ r ∈ updateFirst (matchesUserDate u d) resumRecord l, TotalsOKr r := by
  intro l
  induction l with
  | nil =>
    intro _ _ r hr
    simp [updateFirst] at hr
  | cons a as ih =>
    intro hnd h r hr
    have hnd2 : recKey a ∉ as.map recKey ∧ (as.map recKey).Nodup := by
      rw [List.map_cons, List.nodup_cons] at hnd
      exact hnd
    rw [updateFirst_cons] at hr
    by_cases hp : matchesUserDate u d a = true
    · rw [if_pos hp] at hr
      rcases List.mem_cons.mp hr with h1 | h1
      · subst h1
        exact ⟨rfl, rfl⟩
      · have hka : recKey a = (u, d) := matchesUserDate_iff_key.mp hp
        refine h r (List.mem_cons_of_mem a h1) ?_
        cases hmr : matchesUserDate u d r
        · rfl
        · exfalso
          refine hnd2.1 ?_
          rw [hka, ← matchesUserDate_iff_key.mp hmr]
          exact List.mem_map_of_mem recKey h1
    · rw [if_neg hp] at hr
      rcases List.mem_cons.mp hr with h1 | h1
      · rw [h1]
        exact h a (List.mem_cons_self a as) (by simpa using hp)
      · exact ih hnd2.2 (fun x hx hmx => h x (List.mem_cons_of_mem a hx) hmx) r h1

theorem recKey_resumRecord (r : DailyRecord) : recKey (resumRecord r) = recKey r := rfl

/-- The central repair lemma: `recalculateTotals` yields a well-formed state
provided signs and key-uniqueness hold and totals are correct away from the
`(u, d)` record. -/
theorem wf_recalculateTotals {s : LedgerState} {u d : String}
    (hS : SignsOK s) (hU : UniqueRecords s)
    (hT : ∀ r ∈ s.records, matchesUserDate u d r = false → TotalsOKr r) :
    WellFormed (recalculateTotals s u d).1 := by
  cases hfind : s.records.find? (matchesUserDate u d) with
  | none =>
    simp only [recalculateTotals, hfind]
    refine ⟨hS, ?_, hU⟩
    intro r hr
    refine hT r hr ?_
    have := List.find?_eq_none.mp hfind r hr
    cases hm : matchesUserDate u d r
    · rfl
    · exact absurd hm this
  | some r0 =>
    simp only [recalculateTotals, hfind]
    refine ⟨?_, ?_, ?_⟩
    · intro r hr
      exact forall_updateFirst hS
        (fun x hx _ => show SignsOKr (resumRecord x) from hS x hx) r hr
    · intro r hr
      exact totalsOKr_updateFirst_resum s.records hU hT r hr
    · show (List.map recKey _).Nodup
      rw [map_updateFirst recKey recKey_resumRecord]
      exact hU

theorem recKey_pushEntry (tx : TransactionData) (newTx : Transaction) (r : DailyRecord) :
    recKey (pushEntry tx newTx r) = recKey r := by
  unfold pushEntry
  by_cases h : txSign tx = 1 <;> simp [h, recKey]

theorem signsOKr_pushEntry {tx : TransactionData} {newTx : Transaction} {r : DailyRecord}
    (hr : SignsOKr r) (hty : newTx.type = txSign tx) : SignsOKr (pushEntry tx newTx r) := by
  unfold pushEntry
  by_cases h : txSign tx = 1
  · rw [if_pos h]
    refine ⟨?_, hr.2⟩
    intro t ht
    rcases List.mem_append.mp ht with h1 | h1
    · exact hr.1 t h1
    · rw [List.mem_singleton.mp h1, hty, h]
  · rw [if_neg h]
    refine ⟨hr.1, ?_⟩
    intro t ht
    rcases List.mem_append.mp ht with h1 | h1
    · exact hr.2 t h1
    · rw [List.mem_singleton.mp h1, hty]
      rcases txSign_cases tx with h2 | h2
      · exact absurd h2 h
      · exact h2

theorem totalsOKr_pushEntry {tx : TransactionData} {newTx : Transaction} {r : DailyRecord}
    (hr : TotalsOKr r) (hamt : newTx.amount = tx.amount) : TotalsOKr (pushEntry tx newTx r) := by
  unfold pushEntry
  by_cases h : txSign tx = 1
  · rw [if_pos h]
    exact ⟨by simp [hr.1, hamt], hr.2⟩
  · rw [if_neg h]
    exact ⟨hr.1, by simp [hr.2, hamt]⟩

/-- The fresh day record created by the save path when no record exists. -/
def freshRecord (u today : String) (tx : TransactionData) (newTx : Transaction) : DailyRecord :=
  if txSign tx = 1 then
    { lineID := u, date := today, incomes := [newTx], expenses := [],
      totalIncome := tx.amount, totalExpense := 0 }
  else
    { lineID := u, date := today, incomes := [], expenses := [newTx],
      totalIncome := 0, totalExpense := tx.amount }

theorem saveCore_of_find_none {s : LedgerState} {u : String} {tx : TransactionData}
    {tid : Option Nat} {today : String}
    (hfind : s.records.find? (matchesUserDate u today) = none) :
    saveTransactionCore s u tx tid today =
      (s.nextID,
        { s with records := s.records ++ [freshRecord u today tx (mkTransaction s.nextID tx tid)],
                 nextID := s.nextID + 1 }) := by
  simp only [saveTransactionCore, hfind, freshRecord]

theorem saveCore_of_find_some {s : LedgerState} {u : String} {tx : TransactionData}
    {tid : Option Nat} {today : String} {r0 : DailyRecord}
    (hfind : s.records.find? (matchesUserDate u today) = some r0) :
    saveTransactionCore s u tx tid today =
      (s.nextID,
        { s with records := updateFirst (matchesUserDate u today)
                              (pushEntry tx (mkTransaction s.nextID tx tid)) s.records,
                 nextID := s.nextID + 1 }) := by
  simp only [saveTransactionCore, hfind]

theorem signsOKr_freshRecord (u today : String) (tx : TransactionData)
    (i : Nat) (tid : Option Nat) :
    SignsOKr (freshRecord u today tx (mkTransaction i tx tid)) := by
  unfold freshRecord
  by_cases h : txSign tx = 1
  · rw [if_pos h]
    refine ⟨fun t ht => ?_, fun t ht => by simp at ht⟩
    rw [List.mem_singleton.mp ht]
    simp [mkTransaction, h]
  · rw [if_neg h]
    refine ⟨fun t ht => by simp at ht, fun t ht => ?_⟩
    rw [List.mem_singleton.mp ht]
    show (mkTransaction i tx tid).type = -1
    rcases txSign_cases tx with h2 | h2
    · exact absurd h2 h
    · simp [mkTransaction, h2]

theorem totalsOKr_freshRecord (u today : String) (tx : TransactionData)
    (i : Nat) (tid : Option Nat) :
    TotalsOKr (freshRecord u today tx (mkTransaction i tx tid)) := by
  unfold freshRecord
  by_cases h : txSign tx = 1
  · rw [if_pos h]
    exact ⟨by simp [mkTransaction], by simp⟩
  · rw [if_neg h]
    exact ⟨by simp, by simp [mkTransaction]⟩

theorem recKey_freshRecord (u today : String) (tx : TransactionData) (newTx : Transaction) :
    recKey (freshRecord u today tx newTx) = (u, today) := by
  unfold freshRecord
  by_cases h : txSign tx = 1 <;> simp [h, recKey]

theorem wf_saveCore {s : LedgerState} (u : String) (tx : TransactionData)
    (tid : Option Nat) (today : String) (h : WellFormed s) :
    WellFormed (saveTransactionCore s u tx tid today).2 := by
  obtain ⟨hS, hT, hU⟩ := h
  cases hfind : s.records.find? (matchesUserDate u today) with
  | none =>
    rw [saveCore_of_find_none hfind]
    have hnotin : (u, today) ∉ s.records.map recKey := by
      intro hmem
      rcases List.mem_map.mp hmem with ⟨r, hr, hkr⟩
      exact List.find?_eq_none.mp hfind r hr (matchesUserDate_iff_key.mpr hkr)
    refine ⟨?_, ?_, ?_⟩
    · intro r hr
      rcases List.mem_append.mp hr with h1 | h1
      · exact hS r h1
      · rw [List.mem_singleton.mp h1]
        exact signsOKr_freshRecord u today tx s.nextID tid
    · intro r hr
      rcases List.mem_append.mp hr with h1 | h1
      · exact hT r h1
      · rw [List.mem_singleton.mp h1]
        exact totalsOKr_freshRecord u today tx s.nextID tid
    · show (List.map recKey _).Nodup
      rw [List.map_append, List.nodup_append]
      refine ⟨hU, by simp, ?_⟩
      intro k hk hk2
      simp only [List.map_cons, List.map_nil, List.mem_singleton] at hk2
      rw [recKey_freshRecord] at hk2
      subst hk2
      exact hnotin hk
  | some r0 =>
    rw [saveCore_of_find_some hfind]
    refine ⟨?_, ?_, ?_⟩
    · intro r hr
      refine forall_updateFirst hS (fun x hx _ => ?_) r hr
      exact signsOKr_pushEntry (hS x hx) rfl
    · intro r hr
      refine forall_updateFirst hT (fun x hx _ => ?_) r hr
      exact totalsOKr_pushEntry (hT x hx) rfl
    · show (List.map recKey _).Nodup
      rw [map_updateFirst recKey (recKey_pushEntry tx _)]
      exact hU


theorem signs_updateFirst {l : List DailyRecord} (p : DailyRecord → Bool)
    (f : DailyRecord → DailyRecord) (hS : ∀ r ∈ l, SignsOKr r)
    (hf : ∀ r, SignsOKr r → SignsOKr (f r)) :
    ∀ r ∈ updateFirst p f l, SignsOKr r :=
  forall_updateFirst hS (fun x hx _ => hf x (hS x hx))

theorem nodup_updateFirst {l : List DailyRecord} (p : DailyRecord → Bool)
    (f : DailyRecord → DailyRecord) (hU : (l.map recKey).Nodup)
    (hk : ∀ r, recKey (f r) = recKey r) :
    ((updateFirst p f l).map recKey).Nodup := by
  rw [map_updateFirst recKey hk]
  exact hU

/-- `wf_recalculateTotals` specialised to a state with replaced records. -/
theorem wf_records_recalc {s : LedgerState} {u d : String} {l : List DailyRecord}
    (hS : ∀ r ∈ l, SignsOKr r) (hU : (l.map recKey).Nodup)
    (hT : ∀ r ∈ l, matchesUserDate u d r = false → TotalsOKr r) :
    WellFormed (recalculateTotals { s with records := l } u d).1 :=
  wf_recalculateTotals hS hU hT

theorem signsOKr_pullIncomeID (txID : Nat) (r : DailyRecord) (hr : SignsOKr r) :
    SignsOKr (pullIncomeID txID r) :=
  ⟨fun t ht => hr.1 t (List.mem_of_mem_filter ht), hr.2⟩

theorem signsOKr_pullExpenseID (txID : Nat) (r : DailyRecord) (hr : SignsOKr r) :
    SignsOKr (pullExpenseID txID r) :=
  ⟨hr.1, fun t ht => hr.2 t (List.mem_of_mem_filter ht)⟩

theorem signsOKr_pullIncomeTID (tid : Nat) (r : DailyRecord) (hr : SignsOKr r) :
    SignsOKr (pullIncomeTID tid r) :=
  ⟨fun t ht => hr.1 t (List.mem_of_mem_filter ht), hr.2⟩

theorem signsOKr_pullExpenseTID (tid : Nat) (r : DailyRecord) (hr : SignsOKr r) :
    SignsOKr (pullExpenseTID tid r) :=
  ⟨hr.1, fun t ht => hr.2 t (List.mem_of_mem_filter ht)⟩

theorem signsOKr_setFirstExpense {txID : Nat} (f : Transaction → Transaction)
    (hf : ∀ t, (f t).type = t.type) (r : DailyRecord) (hr : SignsOKr r) :
    SignsOKr (setFirstExpense txID f r) :=
  ⟨hr.1, forall_updateFirst hr.2 (fun x hx _ => by rw [hf]; exact hr.2 x hx)⟩

theorem signsOKr_setFirstIncome {txID : Nat} (f : Transaction → Transaction)
    (hf : ∀ t, (f t).type = t.type) (r : DailyRecord) (hr : SignsOKr r) :
    SignsOKr (setFirstIncome txID f r) :=
  ⟨forall_updateFirst hr.1 (fun x hx _ => by rw [hf]; exact hr.1 x hx), hr.2⟩

theorem totalsOKr_setFirstExpense {txID : Nat} (f : Transaction → Transaction)
    (hf : ∀ t, (f t).amount = t.amount) (r : DailyRecord) (hr : TotalsOKr r) :
    TotalsOKr (setFirstExpense txID f r) := by
  refine ⟨hr.1, ?_⟩
  show r.totalExpense = ((updateFirst (fun tx => tx.id == txID) f r.expenses).map (·.amount)).sum
  rw [map_updateFirst (fun t : Transaction => t.amount) hf]
  exact hr.2

theorem totalsOKr_setFirstIncome {txID : Nat} (f : Transaction → Transaction)
    (hf : ∀ t, (f t).amount = t.amount) (r : DailyRecord) (hr : TotalsOKr r) :
    TotalsOKr (setFirstIncome txID f r) := by
  refine ⟨?_, hr.2⟩
  show r.totalIncome = ((updateFirst (fun tx => tx.id == txID) f r.incomes).map (·.amount)).sum
  rw [map_updateFirst (fun t : Transaction => t.amount) hf]
  exact hr.1

theorem hasExpenseWithID_matches {u today : String} {txID : Nat} {r : DailyRecord}
    (h : hasExpenseWithID u today txID r = true) : matchesUserDate u today r = true := by
  simp only [hasExpenseWithID, Bool.and_eq_true] at h
  exact h.1

theorem hasIncomeWithID_matches {u today : String} {txID : Nat} {r : DailyRecord}
    (h : hasIncomeWithID u today txID r = true) : matchesUserDate u today r = true := by
  simp only [hasIncomeWithID, Bool.and_eq_true] at h
  exact h.1

theorem wf_DeleteTransaction {s : LedgerState} (u : String) (txID : Nat) (today : String)
    (h : WellFormed s) : WellFormed (DeleteTransaction s u txID today).1 := by
  obtain ⟨hS, hT, hU⟩ := h
  unfold DeleteTransaction
  by_cases hm : (s.records.find? (matchesUserDate u today)).isSome
  · simp only [hm, if_true]
    exact wf_records_recalc
      (signs_updateFirst _ _ hS (signsOKr_pullIncomeID txID))
      (nodup_updateFirst _ _ hU (fun r => rfl))
      (totalsOKr_updateFirst_nonmatching _ (pullIncomeID txID) (fun r => rfl)
        (fun r hp => hp) (fun r hr _ => hT r hr))
  · simp only [hm, if_false]
    exact wf_records_recalc
      (signs_updateFirst _ _ (signs_updateFirst _ _ hS (signsOKr_pullIncomeID txID))
        (signsOKr_pullExpenseID txID))
      (nodup_updateFirst _ _ (nodup_updateFirst _ _ hU (fun r => rfl)) (fun r => rfl))
      (totalsOKr_updateFirst_nonmatching _ (pullExpenseID txID) (fun r => rfl)
        (fun r hp => hp)
        (totalsOKr_updateFirst_nonmatching _ (pullIncomeID txID) (fun r => rfl)
          (fun r hp => hp) (fun r hr _ => hT r hr)))

theorem wf_DeleteTransfer {s : LedgerState} (u : String) (tid : Nat) (today : String)
    (h : WellFormed s) : WellFormed (DeleteTransfer s u tid today).1 := by
  obtain ⟨hS, hT, hU⟩ := h
  unfold DeleteTransfer
  refine wf_recalculateTotals ?_ ?_ ?_
  · exact signs_updateFirst _ _ (signs_updateFirst _ _ hS (signsOKr_pullIncomeTID tid))
      (signsOKr_pullExpenseTID tid)
  · exact nodup_updateFirst _ _ (nodup_updateFirst _ _ hU (fun r => rfl)) (fun r => rfl)
  · exact totalsOKr_updateFirst_nonmatching _ (pullExpenseTID tid) (fun r => rfl)
      (fun r hp => hp)
      (totalsOKr_updateFirst_nonmatching _ (pullIncomeTID tid) (fun r => rfl)
        (fun r hp => hp) (fun r hr _ => hT r hr))

theorem wf_UpdateTransactionAmount {s : LedgerState} (u : String) (txID : Nat)
    (amount : ℚ) (today : String) (h : WellFormed s) :
    WellFormed (UpdateTransactionAmount s u txID amount today).1 := by
  obtain ⟨hS, hT, hU⟩ := h
  unfold UpdateTransactionAmount
  by_cases hm : (s.records.find? (hasExpenseWithID u today txID)).isSome
  · simp only [hm, if_true]
    exact wf_records_recalc
      (signs_updateFirst _ _ hS (signsOKr_setFirstExpense _ (fun t => rfl)))
      (nodup_updateFirst _ _ hU (fun r => rfl))
      (totalsOKr_updateFirst_nonmatching _ (setFirstExpense txID (setAmountTx amount))
        (fun r => rfl) (fun r hp => hasExpenseWithID_matches hp) (fun r hr _ => hT r hr))
  · simp only [hm, if_false]
    exact wf_records_recalc
      (signs_updateFirst _ _ hS (signsOKr_setFirstIncome _ (fun t => rfl)))
      (nodup_updateFirst _ _ hU (fun r => rfl))
      (totalsOKr_updateFirst_nonmatching _ (setFirstIncome txID (setAmountTx amount))
        (fun r => rfl) (fun r hp => hasIncomeWithID_matches hp) (fun r hr _ => hT r hr))

theorem wf_UpdateTransactionPayment {s : LedgerState} (u : String) (txID : Nat)
    (useType : Int) (bankName creditCardName today : String) (h : WellFormed s) :
    WellFormed (UpdateTransactionPayment s u txID useType bankName creditCardName today).1 := by
  obtain ⟨hS, hT, hU⟩ := h
  unfold UpdateTransactionPayment
  by_cases hm : (s.records.find? (hasExpenseWithID u today txID)).isSome
  · simp only [hm, if_true]
    exact ⟨signs_updateFirst _ _ hS (signsOKr_setFirstExpense _ (fun t => rfl)),
      forall_updateFirst hT
        (fun x hx _ => totalsOKr_setFirstExpense
          (setPaymentTx useType bankName creditCardName) (fun t => rfl) x (hT x hx)),
      nodup_updateFirst _ _ hU (fun r => rfl)⟩
  · simp only [hm, if_false]
    exact ⟨signs_updateFirst _ _ hS (signsOKr_setFirstIncome _ (fun t => rfl)),
      forall_updateFirst hT
        (fun x hx _ => totalsOKr_setFirstIncome
          (setPaymentTx useType bankName creditCardName) (fun t => rfl) x (hT x hx)),
      nodup_updateFirst _ _ hU (fun r => rfl)⟩

theorem wf_saveLegs (u : String) (tid : Nat) (kind desc today : String) :
    ∀ (legs : List TransferEntry) (s : LedgerState), WellFormed s →
      WellFormed (saveLegs u tid kind desc today s legs).2 := by
  intro legs
  induction legs with
  | nil => intro s h; exact h
  | cons e es ih =>
    intro s h
    exact ih _ (wf_saveCore u (legTxData kind desc e) (some tid) today h)

theorem wf_SaveTransfer {s : LedgerState} (u : String) (t : TransferData) (today : String)
    (h : WellFormed s) : WellFormed (SaveTransfer s u t today).2.2 := by
  unfold SaveTransfer
  exact wf_saveLegs u s.nextID "income" t.description today t.toLegs _
    (wf_saveLegs u s.nextID "expense" t.description today t.fromLegs _ h)

theorem wf_SetBudget {s : LedgerState} (u cat : String) (amount : ℚ) (h : WellFormed s) :
    WellFormed (SetBudget s u cat amount) := by
  unfold SetBudget
  by_cases hm : (s.budgets.find? (fun b => b.lineID == u && b.category == cat)).isSome
  · simp only [hm, if_true]; exact h
  · simp only [hm, if_false]; exact h

theorem wf_DeleteBudget {s : LedgerState} (u cat : String) (h : WellFormed s) :
    WellFormed (DeleteBudget s u cat) := h

theorem wf_init : WellFormed LedgerState.init := by
  refine ⟨?_, ?_, ?_⟩
  · intro r hr; simp [LedgerState.init] at hr
  · intro r hr; simp [LedgerState.init] at hr
  · simp [UniqueRecords, LedgerState.init]

/-- Every reachable state is well-formed: entries carry the sign of their
list, cached totals agree with the lists, at most one record per
(user, date). -/
theorem reachable_wellFormed {s : LedgerState} (h : Reachable s) : WellFormed s := by
  induction h with
  | init => exact wf_init
  | save s u tx today _ ih => exact wf_saveCore u tx none today ih
  | deleteTx s u txID today _ ih => exact wf_DeleteTransaction u txID today ih
  | transfer s u t today _ ih => exact wf_SaveTransfer u t today ih
  | removeTransfer s u tid today _ ih => exact wf_DeleteTransfer u tid today ih
  | amend s u txID amount today _ ih => exact wf_UpdateTransactionAmount u txID amount today ih
  | repay s u txID useType bankName creditCardName today _ ih =>
      exact wf_UpdateTransactionPayment u txID useType bankName creditCardName today ih
  | setBudget s u cat amount _ ih => exact wf_SetBudget u cat amount ih
  | removeBudget s u cat _ ih => exact wf_DeleteBudget u cat ih

/-! ## C1: balance identity of `GetBalanceSummary` -/

/-- Spec quantity: `Σ (amount * sign)` over the user's non-transfer entries. -/
def signedNonTransferSum (s : LedgerState) (u : String) : ℚ :=
  ((userRecords s u).map (fun r =>
    (((r.incomes ++ r.expenses).filter (fun tx => tx.category != transferCategory)).map
      (fun tx => tx.amount * (tx.type : ℚ))).sum)).sum

/-- The ledger narrowed to a single date (for relating the `today` sub-totals
to full-scan totals). -/
def restrictDate (s : LedgerState) (d : String) : LedgerState :=
  { s with records := s.records.filter (fun r => r.date == d) }

theorem sum_map_mul_type_one {l : List Transaction} (h : ∀ tx ∈ l, tx.type = 1) :
    (l.map (fun tx => tx.amount * (tx.type : ℚ))).sum = (l.map (·.amount)).sum := by
  induction l with
  | nil => rfl
  | cons a as ih =>
    have ha := h a (List.mem_cons_self a as)
    simp only [List.map_cons, List.sum_cons, ha]
    rw [ih (fun tx htx => h tx (List.mem_cons_of_mem a htx))]
    push_cast
    ring

theorem sum_map_mul_type_negOne {l : List Transaction} (h : ∀ tx ∈ l, tx.type = -1) :
    (l.map (fun tx => tx.amount * (tx.type : ℚ))).sum = -(l.map (·.amount)).sum := by
  induction l with
  | nil => simp
  | cons a as ih =>
    have ha := h a (List.mem_cons_self a as)
    simp only [List.map_cons, List.sum_cons, ha]
    rw [ih (fun tx htx => h tx (List.mem_cons_of_mem a htx))]
    push_cast
    ring

theorem sum_map_sub {α : Type} (f g : α → ℚ) (l : List α) :
    (l.map (fun x => f x - g x)).sum = (l.map f).sum - (l.map g).sum := by
  induction l with
  | nil => simp
  | cons a as ih => simp [ih]; ring

/-- Per-record: the signed non-transfer sum splits into income minus expense
non-transfer sums, given correct signs. -/
theorem signed_record_split {r : DailyRecord} (h : SignsOKr r) :
    (((r.incomes ++ r.expenses).filter (fun tx => tx.category != transferCategory)).map
      (fun tx => tx.amount * (tx.type : ℚ))).sum
      = nonTransferSum r.incomes - nonTransferSum r.expenses := by
  rw [List.filter_append, List.map_append, List.sum_append]
  rw [sum_map_mul_type_one (fun tx htx => h.1 tx (List.mem_of_mem_filter htx))]
  rw [sum_map_mul_type_negOne (fun tx htx => h.2 tx (List.mem_of_mem_filter htx))]
  unfold nonTransferSum
  ring

theorem userRecords_subset {s : LedgerState} {u : String} {r : DailyRecord}
    (hr : r ∈ userRecords s u) : r ∈ s.records :=
  List.mem_of_mem_filter hr

/-- C1.  For every user and reachable ledger state, `getBalanceSummary`
satisfies `balance = totalIncome - totalExpense`; the balance equals the sum
of `amount * sign` over the user's non-transfer entries; and the today
sub-totals are the full-scan totals of the ledger restricted to the current
date. -/
theorem C1_balance_identity (s : LedgerState) (u today : String) (h : Reachable s) :
    (GetBalanceSummary s u today).balance =
      (GetBalanceSummary s u today).totalIncome - (GetBalanceSummary s u today).totalExpense ∧
    (GetBalanceSummary s u today).balance = signedNonTransferSum s u ∧
    (GetBalanceSummary s u today).todayIncome =
      (GetBalanceSummary (restrictDate s today) u today).totalIncome ∧
    (GetBalanceSummary s u today).todayExpense =
      (GetBalanceSummary (restrictDate s today) u today).totalExpense := by
  have hWF := reachable_wellFormed h
  refine ⟨rfl, ?_, ?_, ?_⟩
  · show ((userRecords s u).map (fun r => nonTransferSum r.incomes)).sum -
        ((userRecords s u).map (fun r => nonTransferSum r.expenses)).sum =
      signedNonTransferSum s u
    unfold signedNonTransferSum
    rw [List.map_congr_left (fun r hr =>
      signed_record_split (hWF.1 r (userRecords_subset hr)))]
    rw [sum_map_sub (fun r : DailyRecord => nonTransferSum r.incomes)
      (fun r : DailyRecord => nonTransferSum r.expenses)]
  · show ((List.filter (fun r => r.date == today) (userRecords s u)).map
        (fun r => nonTransferSum r.incomes)).sum =
      ((userRecords (restrictDate s today) u).map (fun r => nonTransferSum r.incomes)).sum
    unfold userRecords restrictDate
    rw [List.filter_filter, List.filter_filter]
    rw [List.filter_congr (fun r _ => Bool.and_comm (r.date == today) (r.lineID == u))]
  · show ((List.filter (fun r => r.date == today) (userRecords s u)).map
        (fun r => nonTransferSum r.expenses)).sum =
      ((userRecords (restrictDate s today) u).map (fun r => nonTransferSum r.expenses)).sum
    unfold userRecords restrictDate
    rw [List.filter_filter, List.filter_filter]
    rw [List.filter_congr (fun r _ => Bool.and_comm (r.date == today) (r.lineID == u))]

/-- Witness for C1 at a concrete reachable state: the empty database after one
saved 100-baht income. -/
theorem C1_balance_identity_witness :
    (GetBalanceSummary ((SaveTransaction LedgerState.init "u1"
        { date := "2025-01-02", merchant := "", amount := 100, category := "เงินเดือน",
          type := "income", description := "", useType := 0, bankName := "",
          creditCardName := "" } "2025-01-02").2) "u1" "2025-01-02").balance =
      (GetBalanceSummary ((SaveTransaction LedgerState.init "u1"
        { date := "2025-01-02", merchant := "", amount := 100, category := "เงินเดือน",
          type := "income", description := "", useType := 0, bankName := "",
          creditCardName := "" } "2025-01-02").2) "u1" "2025-01-02").totalIncome -
      (GetBalanceSummary ((SaveTransaction LedgerState.init "u1"
        { date := "2025-01-02", merchant := "", amount := 100, category := "เงินเดือน",
          type := "income", description := "", useType := 0, bankName := "",
          creditCardName := "" } "2025-01-02").2) "u1" "2025-01-02").totalExpense ∧
    (GetBalanceSummary ((SaveTransaction LedgerState.init "u1"
        { date := "2025-01-02", merchant := "", amount := 100, category := "เงินเดือน",
          type := "income", description := "", useType := 0, bankName := "",
          creditCardName := "" } "2025-01-02").2) "u1" "2025-01-02").balance =
      signedNonTransferSum ((SaveTransaction LedgerState.init "u1"
        { date := "2025-01-02", merchant := "", amount := 100, category := "เงินเดือน",
          type := "income", description := "", useType := 0, bankName := "",
          creditCardName := "" } "2025-01-02").2) "u1" ∧
    (GetBalanceSummary ((SaveTransaction LedgerState.init "u1"
        { date := "2025-01-02", merchant := "", amount := 100, category := "เงินเดือน",
          type := "income", description := "", useType := 0, bankName := "",
          creditCardName := "" } "2025-01-02").2) "u1" "2025-01-02").todayIncome =
      (GetBalanceSummary (restrictDate ((SaveTransaction LedgerState.init "u1"
        { date := "2025-01-02", merchant := "", amount := 100, category := "เงินเดือน",
          type := "income", description := "", useType := 0, bankName := "",
          creditCardName := "" } "2025-01-02").2) "2025-01-02") "u1" "2025-01-02").totalIncome ∧
    (GetBalanceSummary ((SaveTransaction LedgerState.init "u1"
        { date := "2025-01-02", merchant := "", amount := 100, category := "เงินเดือน",
          type := "income", description := "", useType := 0, bankName := "",
          creditCardName := "" } "2025-01-02").2) "u1" "2025-01-02").todayExpense =
      (GetBalanceSummary (restrictDate ((SaveTransaction LedgerState.init "u1"
        { date := "2025-01-02", merchant := "", amount := 100, category := "เงินเดือน",
          type := "income", description := "", useType := 0, bankName := "",
          creditCardName := "" } "2025-01-02").2) "2025-01-02") "u1" "2025-01-02").totalExpense :=
  C1_balance_identity _ "u1" "2025-01-02"
    (Reachable.save LedgerState.init "u1" _ "2025-01-02" Reachable.init)

/-! ## C10: uncategorised fallback in `GetMonthlySpendingByCategory` -/

/-- The effective category of the monthly-spending loop: empty falls back to
`otherCategory`. -/
def effCategory (tx : Transaction) : String :=
  if tx.category == "" then otherCategory else tx.category

/-- Whether an expense contributes to key `c` in the monthly-spending map. -/
def contributes (c : String) (tx : Transaction) : Bool :=
  tx.category != transferCategory && (c == effCategory tx)

/-- All in-window expense entries of the user, in scan order. -/
def monthExpenses (s : LedgerState) (u first last : String) : List Transaction :=
  ((s.records.filter
    (fun r => r.lineID == u && dateLE first r.date && dateLE r.date last)).map
      (·.expenses)).flatten

theorem spendAdd_apply (m : String → ℚ) (tx : Transaction) (c : String) :
    spendAdd m tx c = if contributes c tx then m c + tx.amount else m c := by
  unfold spendAdd contributes effCategory
  by_cases h0 : tx.category = ""
  · by_cases hc : c = otherCategory
    · simp +decide [h0, hc]
    · simp +decide [h0, hc]
  · by_cases ht : tx.category = transferCategory
    · simp +decide [h0, ht]
    · by_cases hc : c = tx.category
      · simp +decide [h0, ht, hc]
      · simp +decide [h0, ht, hc]

theorem spendFold_apply :
    ∀ (l : List Transaction) (m : String → ℚ) (c : String),
      l.foldl spendAdd m c = m c + ((l.filter (contributes c)).map (·.amount)).sum := by
  intro l
  induction l with
  | nil => intro m c; simp
  | cons a as ih =>
    intro m c
    rw [List.foldl_cons, ih]
    rw [spendAdd_apply]
    by_cases h : contributes c a
    · rw [if_pos h, List.filter_cons_of_pos h]
      simp only [List.map_cons, List.sum_cons]
      ring
    · rw [if_neg h, List.filter_cons_of_neg h]

theorem recordsSpendFold_apply :
    ∀ (rs : List DailyRecord) (m : String → ℚ) (c : String),
      (rs.foldl (fun m r => r.expenses.foldl spendAdd m) m) c =
        m c + ((((rs.map (·.expenses)).flatten).filter (contributes c)).map (·.amount)).sum := by
  intro rs
  induction rs with
  | nil => intro m c; simp
  | cons r rest ih =>
    intro m c
    rw [List.foldl_cons, ih, spendFold_apply]
    simp only [List.map_cons, List.flatten_cons, List.filter_append, List.map_append,
      List.sum_append]
    ring

theorem monthlySpending_eq (s : LedgerState) (u first last c : String) :
    GetMonthlySpendingByCategory s u first last c =
      (((monthExpenses s u first last).filter (contributes c)).map (·.amount)).sum := by
  unfold GetMonthlySpendingByCategory monthExpenses
  rw [recordsSpendFold_apply]
  simp

/-- C10.  Every current-month expense with empty category is counted under the
fallback key `"อื่นๆ"`; the reserved transfer category contributes to no key;
and in general each key holds the sum of the non-transfer in-window expenses
whose effective category is that key, so a budget on `"อื่นๆ"` tracks
uncategorised spending. -/
theorem C10_other_category_fallback (s : LedgerState) (u first last : String) :
    (∀ c : String,
      GetMonthlySpendingByCategory s u first last c =
        (((monthExpenses s u first last).filter
          (fun tx => tx.category != transferCategory && (c == effCategory tx))).map
            (·.amount)).sum) ∧
    GetMonthlySpendingByCategory s u first last otherCategory =
      (((monthExpenses s u first last).filter
        (fun tx => tx.category != transferCategory &&
          (tx.category == "" || tx.category == otherCategory))).map (·.amount)).sum := by
  refine ⟨fun c => monthlySpending_eq s u first last c, ?_⟩
  rw [monthlySpending_eq s u first last otherCategory]
  congr 1
  congr 1
  apply List.filter_congr
  intro tx _
  unfold contributes effCategory
  by_cases h0 : tx.category = ""
  · simp +decide [h0]
  · by_cases he : tx.category = otherCategory
    · simp +decide [h0, he]
    · have e1 : (otherCategory == tx.category) = false := beq_eq_false_iff_ne.mpr (Ne.symm he)
      have e2 : (tx.category == "") = false := beq_eq_false_iff_ne.mpr h0
      have e3 : (tx.category == otherCategory) = false := beq_eq_false_iff_ne.mpr he
      simp [e1, e2, e3]

/-! ## Effect of the save path on today's record -/

/-- Today's day record of the user, when it exists. -/
def todayRecord (s : LedgerState) (u today : String) : Option DailyRecord :=
  s.records.find? (matchesUserDate u today)

/-- Today's income list (empty when no record exists). -/
def todayIncomes (s : LedgerState) (u today : String) : List Transaction :=
  ((todayRecord s u today).map (·.incomes)).getD []

/-- Today's expense list (empty when no record exists). -/
def todayExpenses (s : LedgerState) (u today : String) : List Transaction :=
  ((todayRecord s u today).map (·.expenses)).getD []

theorem matchesUserDate_freshRecord (u today : String) (tx : TransactionData)
    (newTx : Transaction) :
    matchesUserDate u today (freshRecord u today tx newTx) = true := by
  unfold freshRecord
  by_cases h : txSign tx = 1 <;> simp [h, matchesUserDate]

theorem matchesUserDate_pushEntry (u today : String) (tx : TransactionData)
    (newTx : Transaction) (r : DailyRecord) :
    matchesUserDate u today (pushEntry tx newTx r) = matchesUserDate u today r := by
  unfold pushEntry
  by_cases h : txSign tx = 1 <;> simp [h, matchesUserDate]

theorem saveCore_effect (s : LedgerState) (u : String) (tx : TransactionData)
    (tid : Option Nat) (today : String) :
    todayIncomes (saveTransactionCore s u tx tid today).2 u today =
      todayIncomes s u today ++
        (if txSign tx = 1 then [mkTransaction s.nextID tx tid] else []) ∧
    todayExpenses (saveTransactionCore s u tx tid today).2 u today =
      todayExpenses s u today ++
        (if txSign tx = 1 then [] else [mkTransaction s.nextID tx tid]) ∧
    (saveTransactionCore s u tx tid today).1 = s.nextID ∧
    (saveTransactionCore s u tx tid today).2.nextID = s.nextID + 1 ∧
    (saveTransactionCore s u tx tid today).2.transfers = s.transfers ∧
    (saveTransactionCore s u tx tid today).2.budgets = s.budgets := by
  cases hfind : s.records.find? (matchesUserDate u today) with
  | none =>
    rw [saveCore_of_find_none hfind]
    have hfresh : todayRecord
        { s with records := s.records ++ [freshRecord u today tx (mkTransaction s.nextID tx tid)],
                 nextID := s.nextID + 1 } u today =
        some (freshRecord u today tx (mkTransaction s.nextID tx tid)) := by
      show (s.records ++ [freshRecord u today tx (mkTransaction s.nextID tx tid)]).find?
        (matchesUserDate u today) = _
      rw [List.find?_append, hfind]
      simp [List.find?_cons, matchesUserDate_freshRecord]
    have hnone : todayRecord s u today = none := hfind
    unfold todayIncomes todayExpenses
    rw [hfresh, hnone]
    unfold freshRecord
    by_cases h : txSign tx = 1 <;> simp [h]
  | some r0 =>
    rw [saveCore_of_find_some hfind]
    have hpush : todayRecord
        { s with records := updateFirst (matchesUserDate u today) (pushEntry tx (mkTransaction s.nextID tx tid)) s.records,
                 nextID := s.nextID + 1 } u today =
        some (pushEntry tx (mkTransaction s.nextID tx tid) r0) := by
      show (updateFirst (matchesUserDate u today) _ s.records).find? (matchesUserDate u today) = _
      rw [find?_updateFirst (matchesUserDate_pushEntry u today tx _), hfind]
      rfl
    have hsome : todayRecord s u today = some r0 := hfind
    unfold todayIncomes todayExpenses
    rw [hpush, hsome]
    unfold pushEntry
    by_cases h : txSign tx = 1 <;> simp [h]

/-- Number of entries in today's record. -/
def todayEntryCount (s : LedgerState) (u today : String) : Nat :=
  (todayIncomes s u today).length + (todayExpenses s u today).length

theorem saveCore_count (s : LedgerState) (u : String) (tx : TransactionData)
    (tid : Option Nat) (today : String) :
    todayEntryCount (saveTransactionCore s u tx tid today).2 u today =
      todayEntryCount s u today + 1 := by
  obtain ⟨h1, h2, _, _, _, _⟩ := saveCore_effect s u tx tid today
  unfold todayEntryCount
  rw [h1, h2]
  by_cases h : txSign tx = 1 <;> simp [h] <;> omega

theorem saveAll_count (u today : String) :
    ∀ (txs : List TransactionData) (s : LedgerState),
      todayEntryCount (saveAll u today s txs) u today =
        todayEntryCount s u today + txs.length := by
  intro txs
  induction txs with
  | nil => intro s; rfl
  | cons tx rest ih =>
    intro s
    show todayEntryCount (saveAll u today (saveTransactionCore s u tx none today).2 rest) u today = _
    rw [ih, saveCore_count]
    simp [List.length_cons]
    omega

/-! ## C9: zero-amount filtering of the `new` intent batch -/

/-- C9.  Dispatching a `new` batch behaves exactly as if the items with
`amount <= 0` had been removed beforehand; a batch whose items are all
non-positive persists nothing and pushes no alert; and each kept item is
saved: today's entry count grows by exactly the number of strictly-positive
items. -/
theorem C9_zero_amount_filtering (s : LedgerState) (u today first last : String)
    (txs : List TransactionData) :
    handleNewIntent s u today first last txs =
      handleNewIntent s u today first last
        (txs.filter (fun tx => decide ((0 : ℚ) < tx.amount))) ∧
    ((∀ tx ∈ txs, tx.amount ≤ 0) →
      handleNewIntent s u today first last txs = (s, [])) ∧
    todayEntryCount (handleNewIntent s u today first last txs).1 u today =
      todayEntryCount s u today +
        (txs.filter (fun tx => decide ((0 : ℚ) < tx.amount))).length := by
  have hidem : (txs.filter (fun tx => decide ((0 : ℚ) < tx.amount))).filter
      (fun tx => decide ((0 : ℚ) < tx.amount)) =
      txs.filter (fun tx => decide ((0 : ℚ) < tx.amount)) := by
    rw [List.filter_filter]
    apply List.filter_congr
    intro a _
    exact Bool.and_self _
  refine ⟨?_, ?_, ?_⟩
  · unfold handleNewIntent
    rw [hidem]
  · intro hall
    have hempty : txs.filter (fun tx => decide ((0 : ℚ) < tx.amount)) = [] := by
      rw [List.filter_eq_nil_iff]
      intro a ha
      simp only [decide_eq_true_eq]
      exact not_lt.mpr (hall a ha)
    unfold handleNewIntent
    rw [hempty]
    rfl
  · unfold handleNewIntent
    cases hv : txs.filter (fun tx => decide ((0 : ℚ) < tx.amount)) with
    | nil => simp [hv]
    | cons a as =>
      simp only [List.isEmpty_cons]
      rw [if_neg Bool.false_ne_true]
      show todayEntryCount (saveAll u today s (a :: as)) u today =
        todayEntryCount s u today + (a :: as).length
      rw [saveAll_count]

/-! ## C2: transfer expansion -/

/-- The transactions generated for a list of legs, ids assigned sequentially
from `base`. -/
def legTransactions (kind desc : String) (tid : Nat) : Nat → List TransferEntry → List Transaction
  | _, [] => []
  | base, e :: es =>
    mkTransaction base (legTxData kind desc e) (some tid) ::
      legTransactions kind desc tid (base + 1) es

theorem txSign_legTxData (kind desc : String) (e : TransferEntry) :
    txSign (legTxData kind desc e) = if kind == "income" then 1 else -1 := rfl

/-- The seven field-level correspondences between generated transactions and
their legs: amounts, payment methods, sign, reserved category, transfer tag. -/
theorem legTransactions_maps (kind desc : String) (tid : Nat) :
    ∀ (legs : List TransferEntry) (base : Nat),
      ((legTransactions kind desc tid base legs).map (·.amount) = legs.map (·.amount)) ∧
      ((legTransactions kind desc tid base legs).map (·.useType) = legs.map (·.useType)) ∧
      ((legTransactions kind desc tid base legs).map (·.bankName) = legs.map (·.bankName)) ∧
      ((legTransactions kind desc tid base legs).map (·.creditCardName) =
        legs.map (·.creditCardName)) ∧
      ((legTransactions kind desc tid base legs).map (·.type) =
        legs.map (fun _ => if kind == "income" then (1 : Int) else -1)) ∧
      ((legTransactions kind desc tid base legs).map (·.category) =
        legs.map (fun _ => transferCategory)) ∧
      ((legTransactions kind desc tid base legs).map (·.transferID) =
        legs.map (fun _ => (some tid : Option Nat))) := by
  intro legs
  induction legs with
  | nil => intro base; simp [legTransactions]
  | cons e es ih =>
    intro base
    obtain ⟨i1, i2, i3, i4, i5, i6, i7⟩ := ih (base + 1)
    simp only [legTransactions, List.map_cons, mkTransaction, legTxData, txSign]
    exact ⟨by rw [i1], by rw [i2], by rw [i3], by rw [i4], by rw [i5], by rw [i6], by rw [i7]⟩

/-- Cumulative effect of saving all legs of one side. -/
theorem saveLegs_effect (u : String) (tid : Nat) (kind desc today : String) :
    ∀ (legs : List TransferEntry) (s : LedgerState),
      (saveLegs u tid kind desc today s legs).1 =
        (legTransactions kind desc tid s.nextID legs).map (·.id) ∧
      (saveLegs u tid kind desc today s legs).2.nextID = s.nextID + legs.length ∧
      (saveLegs u tid kind desc today s legs).2.transfers = s.transfers ∧
      todayIncomes (saveLegs u tid kind desc today s legs).2 u today =
        todayIncomes s u today ++
          (if kind == "income" then legTransactions kind desc tid s.nextID legs else []) ∧
      todayExpenses (saveLegs u tid kind desc today s legs).2 u today =
        todayExpenses s u today ++
          (if kind == "income" then [] else legTransactions kind desc tid s.nextID legs) := by
  intro legs
  induction legs with
  | nil =>
    intro s
    refine ⟨rfl, rfl, rfl, ?_, ?_⟩ <;> by_cases hk : kind == "income" <;>
      simp [hk, legTransactions, saveLegs]
  | cons e es ih =>
    intro s
    have hcore := saveCore_effect s u (legTxData kind desc e) (some tid) today
    obtain ⟨hInc, hExp, hID, hNext, hTr, _⟩ := hcore
    have hstep : saveLegs u tid kind desc today s (e :: es) =
        ((saveTransactionWithTransferID s u (legTxData kind desc e) tid today).1 ::
          (saveLegs u tid kind desc today
            (saveTransactionWithTransferID s u (legTxData kind desc e) tid today).2 es).1,
         (saveLegs u tid kind desc today
            (saveTransactionWithTransferID s u (legTxData kind desc e) tid today).2 es).2) := rfl
    obtain ⟨e1, e2, e3, e4, e5⟩ :=
      ih (saveTransactionWithTransferID s u (legTxData kind desc e) tid today).2
    rw [hstep]
    have hNext2 : (saveTransactionWithTransferID s u (legTxData kind desc e) tid today).2.nextID =
        s.nextID + 1 := hNext
    refine ⟨?_, ?_, ?_, ?_, ?_⟩
    · show _ :: _ = _
      rw [e1, hNext2]
      show (saveTransactionCore s u (legTxData kind desc e) (some tid) today).1 :: _ = _
      rw [hID]
      rfl
    · rw [e2, hNext2, List.length_cons]
      omega
    · rw [e3]
      exact hTr
    · rw [e4, hNext2]
      show todayIncomes (saveTransactionCore s u (legTxData kind desc e) (some tid) today).2
          u today ++ _ = _
      rw [hInc]
      by_cases hk : kind == "income"
      · have hs : txSign (legTxData kind desc e) = 1 := by rw [txSign_legTxData, if_pos hk]
        simp [hs, hk, legTransactions]
      · have hs : txSign (legTxData kind desc e) ≠ 1 := by
          rw [txSign_legTxData, if_neg hk]
          decide
        simp [hs, hk]
    · rw [e5, hNext2]
      show todayExpenses (saveTransactionCore s u (legTxData kind desc e) (some tid) today).2
          u today ++ _ = _
      rw [hExp]
      by_cases hk : kind == "income"
      · have hs : txSign (legTxData kind desc e) = 1 := by rw [txSign_legTxData, if_pos hk]
        simp [hs, hk]
      · have hs : txSign (legTxData kind desc e) ≠ 1 := by
          rw [txSign_legTxData, if_neg hk]
          decide
        simp [hs, hk, legTransactions]

/-- C2.  `SaveTransfer` with non-empty leg lists persists one transfer record
whose total is the sum of the `from` amounts, appends to today's record one
expense entry per `from` leg and one income entry per `to` leg — each carrying
the leg's amount and payment method, the reserved transfer category, the new
transfer id, and sign `-1` resp. `+1` — and returns the transfer id together
with the ids of all generated entries. -/
theorem C2_transfer_expansion (s : LedgerState) (u : String) (t : TransferData)
    (today : String) (hf : t.fromLegs ≠ []) (ht : t.toLegs ≠ []) :
    (SaveTransfer s u t today).2.2.transfers =
      s.transfers ++ [{ id := (SaveTransfer s u t today).1, lineID := u, date := today,
                        description := t.description, fromLegs := t.fromLegs.map toEntryDB,
                        toLegs := t.toLegs.map toEntryDB,
                        totalAmount := (t.fromLegs.map (·.amount)).sum }] ∧
    todayExpenses (SaveTransfer s u t today).2.2 u today =
      todayExpenses s u today ++
        legTransactions "expense" t.description (SaveTransfer s u t today).1
          (s.nextID + 1) t.fromLegs ∧
    todayIncomes (SaveTransfer s u t today).2.2 u today =
      todayIncomes s u today ++
        legTransactions "income" t.description (SaveTransfer s u t today).1
          (s.nextID + 1 + t.fromLegs.length) t.toLegs ∧
    (SaveTransfer s u t today).2.1 =
      (legTransactions "expense" t.description (SaveTransfer s u t today).1
        (s.nextID + 1) t.fromLegs).map (·.id) ++
      (legTransactions "income" t.description (SaveTransfer s u t today).1
        (s.nextID + 1 + t.fromLegs.length) t.toLegs).map (·.id) ∧
    (∀ base,
      ((legTransactions "expense" t.description (SaveTransfer s u t today).1
          base t.fromLegs).map (·.amount) = t.fromLegs.map (·.amount)) ∧
      ((legTransactions "expense" t.description (SaveTransfer s u t today).1
          base t.fromLegs).map (·.useType) = t.fromLegs.map (·.useType)) ∧
      ((legTransactions "expense" t.description (SaveTransfer s u t today).1
          base t.fromLegs).map (·.bankName) = t.fromLegs.map (·.bankName)) ∧
      ((legTransactions "expense" t.description (SaveTransfer s u t today).1
          base t.fromLegs).map (·.creditCardName) = t.fromLegs.map (·.creditCardName)) ∧
      ((legTransactions "expense" t.description (SaveTransfer s u t today).1
          base t.fromLegs).map (·.type) = t.fromLegs.map (fun _ => (-1 : Int))) ∧
      ((legTransactions "expense" t.description (SaveTransfer s u t today).1
          base t.fromLegs).map (·.category) = t.fromLegs.map (fun _ => transferCategory)) ∧
      ((legTransactions "expense" t.description (SaveTransfer s u t today).1
          base t.fromLegs).map (·.transferID) =
        t.fromLegs.map (fun _ => (some (SaveTransfer s u t today).1 : Option Nat)))) ∧
    (∀ base,
      ((legTransactions "income" t.description (SaveTransfer s u t today).1
          base t.toLegs).map (·.amount) = t.toLegs.map (·.amount)) ∧
      ((legTransactions "income" t.description (SaveTransfer s u t today).1
          base t.toLegs).map (·.useType) = t.toLegs.map (·.useType)) ∧
      ((legTransactions "income" t.description (SaveTransfer s u t today).1
          base t.toLegs).map (·.bankName) = t.toLegs.map (·.bankName)) ∧
      ((legTransactions "income" t.description (SaveTransfer s u t today).1
          base t.toLegs).map (·.creditCardName) = t.toLegs.map (·.creditCardName)) ∧
      ((legTransactions "income" t.description (SaveTransfer s u t today).1
          base t.toLegs).map (·.type) = t.toLegs.map (fun _ => (1 : Int))) ∧
      ((legTransactions "income" t.description (SaveTransfer s u t today).1
          base t.toLegs).map (·.category) = t.toLegs.map (fun _ => transferCategory)) ∧
      ((legTransactions "income" t.description (SaveTransfer s u t today).1
          base t.toLegs).map (·.transferID) =
        t.toLegs.map (fun _ => (some (SaveTransfer s u t today).1 : Option Nat)))) := by
  have htid : (SaveTransfer s u t today).1 = s.nextID := rfl
  obtain ⟨a1, a2, a3, a4, a5⟩ := saveLegs_effect u s.nextID "expense" t.description today
    t.fromLegs
    { s with transfers := s.transfers ++ [{ id := s.nextID, lineID := u, date := today, description := t.description, fromLegs := t.fromLegs.map toEntryDB, toLegs := t.toLegs.map toEntryDB, totalAmount := (t.fromLegs.map (·.amount)).sum }],
             nextID := s.nextID + 1 }
  obtain ⟨b1, b2, b3, b4, b5⟩ := saveLegs_effect u s.nextID "income" t.description today
    t.toLegs
    (saveLegs u s.nextID "expense" t.description today
      { s with transfers := s.transfers ++ [{ id := s.nextID, lineID := u, date := today, description := t.description, fromLegs := t.fromLegs.map toEntryDB, toLegs := t.toLegs.map toEntryDB, totalAmount := (t.fromLegs.map (·.amount)).sum }],
               nextID := s.nextID + 1 } t.fromLegs).2
  have hyi : ("income" == "income") = true := by decide
  have hni : ¬(("expense" == "income") = true) := by decide
  refine ⟨?_, ?_, ?_, ?_, ?_, ?_⟩
  · show (saveLegs u s.nextID "income" t.description today _ t.toLegs).2.transfers = _
    rw [b3, a3, htid]
  · show todayExpenses (saveLegs u s.nextID "income" t.description today _ t.toLegs).2 u today = _
    rw [b5, a5, htid, if_pos hyi, if_neg hni, List.append_nil]
    rfl
  · show todayIncomes (saveLegs u s.nextID "income" t.description today _ t.toLegs).2 u today = _
    rw [b4, a4, a2, htid, if_pos hyi, if_neg hni, List.append_nil]
    rfl
  · show (saveLegs u s.nextID "expense" t.description today _ t.fromLegs).1 ++
        (saveLegs u s.nextID "income" t.description today _ t.toLegs).1 = _
    rw [a1, b1, a2, htid]
  · intro base
    obtain ⟨m1, m2, m3, m4, m5, m6, m7⟩ :=
      legTransactions_maps "expense" t.description (SaveTransfer s u t today).1 t.fromLegs base
    exact ⟨m1, m2, m3, m4, by rw [m5]; rfl, m6, m7⟩
  · intro base
    obtain ⟨m1, m2, m3, m4, m5, m6, m7⟩ :=
      legTransactions_maps "income" t.description (SaveTransfer s u t today).1 t.toLegs base
    exact ⟨m1, m2, m3, m4, by rw [m5]; rfl, m6, m7⟩

/-- Witness for C2: a one-leg-to-one-leg 100-baht transfer on the empty
database persists the transfer record with total 100. -/
theorem C2_transfer_expansion_witness :
    (SaveTransfer LedgerState.init "u1"
        { fromLegs := [{ amount := 100, useType := 2, bankName := "KBank", creditCardName := "" }],
          toLegs := [{ amount := 100, useType := 0, bankName := "", creditCardName := "" }],
          description := "โอน" } "2025-01-02").2.2.transfers =
      LedgerState.init.transfers ++
        [{ id := (SaveTransfer LedgerState.init "u1"
              { fromLegs := [{ amount := 100, useType := 2, bankName := "KBank", creditCardName := "" }],
                toLegs := [{ amount := 100, useType := 0, bankName := "", creditCardName := "" }],
                description := "โอน" } "2025-01-02").1,
           lineID := "u1", date := "2025-01-02", description := "โอน",
           fromLegs := ([{ amount := 100, useType := 2, bankName := "KBank", creditCardName := "" }] : List TransferEntry).map toEntryDB,
           toLegs := ([{ amount := 100, useType := 0, bankName := "", creditCardName := "" }] : List TransferEntry).map toEntryDB,
           totalAmount := (([{ amount := 100, useType := 2, bankName := "KBank", creditCardName := "" }] : List TransferEntry).map (·.amount)).sum }] :=
  (C2_transfer_expansion LedgerState.init "u1"
    { fromLegs := [{ amount := 100, useType := 2, bankName := "KBank", creditCardName := "" }],
      toLegs := [{ amount := 100, useType := 0, bankName := "", creditCardName := "" }],
      description := "โอน" } "2025-01-02" (by decide) (by decide)).1

/-! ## C5: budget alert bands and their place in the dispatch pipeline -/

/-- Formalisation of the claim's own words, for comparison with the
implementation: `shouldAlert` computed from the projection `S + a` where `S`
is the current-month category spend *before the entry is committed*. -/
def claimBudgetAlertPreCommit (s : LedgerState) (u category : String) (a : ℚ)
    (first last : String) : Bool :=
  match GetBudget s u category with
  | none => false
  | some b =>
    let S := GetMonthlySpendingByCategory s u first last category
    if S + a > b.amount then true
    else if (S + a) / b.amount * 100 ≥ 80 then true
    else false

/-- C5 (amended).  `CheckBudgetAlert` classifies `spent + incoming` into the
three bands — over budget (urgent), at least 80 % (warning), silent — where
`spent` is the current-month spend *at call time*; and the `new`-intent
pipeline is advisory: its saved state is the unconditional save of the
positive-amount items, never blocked by the alert outcome.  (In that pipeline
the check runs after the save, so `spent` already contains the new amount —
see the counterexample.) -/
theorem C5_budget_alert_bands (s : LedgerState) (u category : String) (a : ℚ)
    (first last today : String) (txs : List TransactionData) (b : Budget)
    (h1 : GetBudget s u category = some b) (h2 : 0 < b.amount) :
    (CheckBudgetAlert s u category a first last =
      (true, .overBudget category (GetMonthlySpendingByCategory s u first last category + a)
        b.amount) ↔
      b.amount < GetMonthlySpendingByCategory s u first last category + a) ∧
    (CheckBudgetAlert s u category a first last =
      (true, .nearLimit category (GetMonthlySpendingByCategory s u first last category + a)
        b.amount) ↔
      (¬ b.amount < GetMonthlySpendingByCategory s u first last category + a ∧
        80 * b.amount ≤ (GetMonthlySpendingByCategory s u first last category + a) * 100)) ∧
    (CheckBudgetAlert s u category a first last = (false, .noMessage) ↔
      (¬ b.amount < GetMonthlySpendingByCategory s u first last category + a ∧
        ¬ 80 * b.amount ≤ (GetMonthlySpendingByCategory s u first last category + a) * 100)) ∧
    (handleNewIntent s u today first last txs).1 =
      saveAll u today s (txs.filter (fun tx => decide ((0 : ℚ) < tx.amount))) := by
  have hconv : ∀ x : ℚ, (x / b.amount * 100 ≥ 80) ↔ (80 * b.amount ≤ x * 100) := by
    intro x
    rw [ge_iff_le, div_mul_eq_mul_div, le_div_iff h2]
  have hA : CheckBudgetAlert s u category a first last =
      (if GetMonthlySpendingByCategory s u first last category + a > b.amount then
        ((true : Bool), AlertMessage.overBudget category
          (GetMonthlySpendingByCategory s u first last category + a) b.amount)
      else if (GetMonthlySpendingByCategory s u first last category + a) / b.amount * 100 ≥ 80 then
        ((true : Bool), AlertMessage.nearLimit category
          (GetMonthlySpendingByCategory s u first last category + a) b.amount)
      else ((false : Bool), AlertMessage.noMessage)) := by
    unfold CheckBudgetAlert
    rw [h1]
  refine ⟨?_, ?_, ?_, ?_⟩
  · rw [hA]
    by_cases hover : b.amount < GetMonthlySpendingByCategory s u first last category + a
    · simp [hover]
    · rw [if_neg hover]
      by_cases hpct :
          (GetMonthlySpendingByCategory s u first last category + a) / b.amount * 100 ≥ 80
      · simp [hpct, hover]
      · simp [hpct, hover]
  · rw [hA]
    by_cases hover : b.amount < GetMonthlySpendingByCategory s u first last category + a
    · simp [hover]
    · rw [if_neg hover]
      by_cases hpct :
          (GetMonthlySpendingByCategory s u first last category + a) / b.amount * 100 ≥ 80
      · simp [hpct, hover, (hconv _).mp hpct]
      · simp only [if_neg hpct]
        rw [← hconv _]
        simp [hpct, hover]
  · rw [hA]
    by_cases hover : b.amount < GetMonthlySpendingByCategory s u first last category + a
    · simp [hover]
    · rw [if_neg hover]
      by_cases hpct :
          (GetMonthlySpendingByCategory s u first last category + a) / b.amount * 100 ≥ 80
      · rw [if_pos hpct]
        rw [← hconv _]
        simp [hpct, hover]
      · simp only [if_neg hpct]
        rw [← hconv _]
        simp [hpct, hover]
  · unfold handleNewIntent
    cases hv : txs.filter (fun tx => decide ((0 : ℚ) < tx.amount)) with
    | nil => simp [hv, saveAll]
    | cons x xs => simp

/-- Witness for C5 at concrete input: budget 100, call-time spend 0,
incoming 85 — warning band. -/
theorem C5_budget_alert_bands_witness :
    (CheckBudgetAlert
        { records := [], transfers := [],
          budgets := [{ lineID := "u1", category := "อาหาร", amount := 100 }], nextID := 0 }
        "u1" "อาหาร" 85 "2025-01-01" "2025-01-31" =
      (true, .overBudget "อาหาร"
        (GetMonthlySpendingByCategory
          { records := [], transfers := [],
            budgets := [{ lineID := "u1", category := "อาหาร", amount := 100 }], nextID := 0 }
          "u1" "2025-01-01" "2025-01-31" "อาหาร" + 85) 100) ↔
      (100 : ℚ) < GetMonthlySpendingByCategory
          { records := [], transfers := [],
            budgets := [{ lineID := "u1", category := "อาหาร", amount := 100 }], nextID := 0 }
          "u1" "2025-01-01" "2025-01-31" "อาหาร" + 85) :=
  (C5_budget_alert_bands
    { records := [], transfers := [],
      budgets := [{ lineID := "u1", category := "อาหาร", amount := 100 }], nextID := 0 }
    "u1" "อาหาร" 85 "2025-01-01" "2025-01-31" "2025-01-15" []
    { lineID := "u1", category := "อาหาร", amount := 100 } rfl (by norm_num)).1

/-- The pre-state of the C5 counterexample: a 100-baht budget for the food
category and an otherwise empty ledger. -/
def c5State : LedgerState :=
  { records := [], transfers := [],
    budgets := [{ lineID := "u1", category := "อาหาร", amount := 100 }], nextID := 0 }

/-- The 50-baht food expense of the C5 counterexample batch. -/
def c5Tx : TransactionData :=
  { date := "", merchant := "", amount := 50, category := "อาหาร", type := "expense",
    description := "", useType := 0, bankName := "", creditCardName := "" }

/-- The state after the pipeline has saved the batch. -/
def c5Saved : LedgerState := saveAll "u1" "2025-01-15" c5State [c5Tx]

/-- Counterexample to C5 as stated: with budget 100, no prior spend and one
50-baht expense in the batch, the claimed pre-commit classification of
`S + a = 50` is silent, but the pipeline (which saves first and checks after)
raises an alert, because the projection double-counts the new amount. -/
theorem C5_pre_commit_counterexample :
    claimBudgetAlertPreCommit c5State "u1" "อาหาร" 50 "2025-01-01" "2025-01-31" = false ∧
    ((handleNewIntent c5State "u1" "2025-01-15" "2025-01-01" "2025-01-31" [c5Tx]).2.map
      Prod.fst) = [true] := by
  have hm : monthExpenses c5Saved "u1" "2025-01-01" "2025-01-31" =
      [mkTransaction 0 c5Tx none] := rfl
  have hc : contributes "อาหาร" (mkTransaction 0 c5Tx none) = true := rfl
  have hS : GetMonthlySpendingByCategory c5Saved "u1" "2025-01-01" "2025-01-31" "อาหาร" =
      50 := by
    rw [monthlySpending_eq, hm, List.filter_cons_of_pos hc, List.filter_nil]
    simp [mkTransaction, c5Tx]
  have h1 : (CheckBudgetAlert c5Saved "u1" "อาหาร" 50 "2025-01-01" "2025-01-31").1 = true := by
    show (if GetMonthlySpendingByCategory c5Saved "u1" "2025-01-01" "2025-01-31" "อาหาร" + 50 >
          (100 : ℚ) then
        ((true : Bool), AlertMessage.overBudget "อาหาร"
          (GetMonthlySpendingByCategory c5Saved "u1" "2025-01-01" "2025-01-31" "อาหาร" + 50) 100)
      else if (GetMonthlySpendingByCategory c5Saved "u1" "2025-01-01" "2025-01-31" "อาหาร" + 50) /
          100 * 100 ≥ (80 : ℚ) then
        ((true : Bool), AlertMessage.nearLimit "อาหาร"
          (GetMonthlySpendingByCategory c5Saved "u1" "2025-01-01" "2025-01-31" "อาหาร" + 50) 100)
      else ((false : Bool), AlertMessage.noMessage)).1 = true
    rw [hS]
    rw [if_neg (by norm_num : ¬((50 : ℚ) + 50 > 100))]
    rw [if_pos (by norm_num : ((50 : ℚ) + 50) / 100 * 100 ≥ 80)]
  constructor
  · show (if (0 : ℚ) + 50 > 100 then true
      else if ((0 : ℚ) + 50) / 100 * 100 ≥ 80 then true else false) = false
    rw [if_neg (by norm_num : ¬((0 : ℚ) + 50 > 100))]
    rw [if_neg (by norm_num : ¬(((0 : ℚ) + 50) / 100 * 100 ≥ 80))]
  · have hpipe : (handleNewIntent c5State "u1" "2025-01-15" "2025-01-01" "2025-01-31"
        [c5Tx]).2 =
        [CheckBudgetAlert c5Saved "u1" "อาหาร" 50 "2025-01-01" "2025-01-31"] := rfl
    rw [hpipe, List.map_cons, List.map_nil, h1]

/-! ## C3 / C7: the delete operations -/

theorem updateFirst_eq_self_of_find? {α : Type} {p : α → Bool} {f : α → α} {l : List α}
    {a : α} (hfind : l.find? p = some a) (ha : f a = a) : updateFirst p f l = l := by
  induction l with
  | nil => simp at hfind
  | cons x xs ih =>
    rw [updateFirst_cons]
    by_cases hp : p x = true
    · rw [List.find?_cons_of_pos _ hp] at hfind
      have hax : a = x := by injection hfind with h; exact h.symm
      rw [hax] at ha
      rw [if_pos hp, ha]
    · rw [List.find?_cons_of_neg _ (by simpa using hp)] at hfind
      rw [if_neg hp, ih hfind]

theorem filter_not_updateFirst {α : Type} {p : α → Bool} {f : α → α}
    (hp : ∀ x, p (f x) = p x) (l : List α) :
    (updateFirst p f l).filter (fun x => !(p x)) = l.filter (fun x => !(p x)) := by
  induction l with
  | nil => rfl
  | cons a as ih =>
    rw [updateFirst_cons]
    by_cases hpa : p a = true
    · rw [if_pos hpa]
      rw [List.filter_cons_of_neg (by simp [hp, hpa]), List.filter_cons_of_neg (by simp [hpa])]
    · rw [if_neg hpa]
      rw [List.filter_cons_of_pos (by simp [hpa]), List.filter_cons_of_pos (by simp [hpa]), ih]

theorem resumRecord_eq_self {r : DailyRecord} (h : TotalsOKr r) : resumRecord r = r := by
  obtain ⟨h1, h2⟩ := h
  unfold resumRecord
  cases r
  simp only at h1 h2 ⊢
  rw [← h1, ← h2]

theorem C3_hdef (s : LedgerState) (u : String) (tid : Nat) (today : String) :
    DeleteTransfer s u tid today =
      recalculateTotals
        { s with records := updateFirst (matchesUserDate u today) (pullExpenseTID tid) (updateFirst (matchesUserDate u today) (pullIncomeTID tid) s.records),
                 transfers := s.transfers.eraseP (fun tr => tr.id == tid) } u today := rfl

/-- C3 (amended).  `DeleteTransfer` removes the transfer-tagged entries only
from the *current date's* record (records of other dates are never touched),
deletes the transfer record, and recalculates only today's totals, reporting
that recalculation's error: success when today's record exists — in
particular deleting an already-deleted transfer is then a no-op success — and
the record-not-found error when the user has no record for today. -/
theorem C3_delete_transfer_today_only (s : LedgerState) (u : String) (tid : Nat)
    (today : String) (r : DailyRecord) :
    ((DeleteTransfer s u tid today).1.records.filter
        (fun x => !(matchesUserDate u today x)) =
      s.records.filter (fun x => !(matchesUserDate u today x))) ∧
    (todayRecord s u today = some r →
      (DeleteTransfer s u tid today).2 = true ∧
      todayIncomes (DeleteTransfer s u tid today).1 u today =
        r.incomes.filter (fun tx => tx.transferID != some tid) ∧
      todayExpenses (DeleteTransfer s u tid today).1 u today =
        r.expenses.filter (fun tx => tx.transferID != some tid) ∧
      (DeleteTransfer s u tid today).1.transfers =
        s.transfers.eraseP (fun tr => tr.id == tid)) ∧
    (todayRecord s u today = none →
      (DeleteTransfer s u tid today).2 = false ∧
      (DeleteTransfer s u tid today).1.records = s.records) ∧
    (todayRecord s u today = some r →
      (∀ tx ∈ r.incomes, tx.transferID ≠ some tid) →
      (∀ tx ∈ r.expenses, tx.transferID ≠ some tid) →
      TotalsOKr r →
      (∀ tr ∈ s.transfers, tr.id ≠ tid) →
      DeleteTransfer s u tid today = (s, true)) := by
  have hp1 : ∀ x, matchesUserDate u today (pullIncomeTID tid x) = matchesUserDate u today x :=
    fun x => rfl
  have hp2 : ∀ x, matchesUserDate u today (pullExpenseTID tid x) = matchesUserDate u today x :=
    fun x => rfl
  have hp3 : ∀ x, matchesUserDate u today (resumRecord x) = matchesUserDate u today x :=
    fun x => rfl
  refine ⟨?_, ?_, ?_, ?_⟩
  · rw [C3_hdef]
    unfold recalculateTotals
    cases hf : (updateFirst (matchesUserDate u today) (pullExpenseTID tid)
        (updateFirst (matchesUserDate u today) (pullIncomeTID tid) s.records)).find?
        (matchesUserDate u today) with
    | none =>
      show (updateFirst (matchesUserDate u today) (pullExpenseTID tid)
          (updateFirst (matchesUserDate u today) (pullIncomeTID tid) s.records)).filter _ = _
      rw [filter_not_updateFirst hp2, filter_not_updateFirst hp1]
    | some r2 =>
      show ((updateFirst (matchesUserDate u today) resumRecord
          (updateFirst (matchesUserDate u today) (pullExpenseTID tid)
            (updateFirst (matchesUserDate u today) (pullIncomeTID tid) s.records)))).filter _ = _
      rw [filter_not_updateFirst hp3, filter_not_updateFirst hp2, filter_not_updateFirst hp1]
  · intro hfind
    have hfind2 : s.records.find? (matchesUserDate u today) = some r := hfind
    have hf2 : (updateFirst (matchesUserDate u today) (pullExpenseTID tid)
        (updateFirst (matchesUserDate u today) (pullIncomeTID tid) s.records)).find?
        (matchesUserDate u today) = some (pullExpenseTID tid (pullIncomeTID tid r)) := by
      rw [find?_updateFirst hp2, find?_updateFirst hp1, hfind2]
      rfl
    rw [C3_hdef]
    unfold recalculateTotals
    rw [hf2]
    refine ⟨rfl, ?_, ?_, rfl⟩
    · show ((((updateFirst (matchesUserDate u today) resumRecord
        (updateFirst (matchesUserDate u today) (pullExpenseTID tid)
          (updateFirst (matchesUserDate u today) (pullIncomeTID tid)
            s.records))).find? (matchesUserDate u today)).map (·.incomes)).getD []) = _
      rw [find?_updateFirst hp3, hf2]
      rfl
    · show ((((updateFirst (matchesUserDate u today) resumRecord
        (updateFirst (matchesUserDate u today) (pullExpenseTID tid)
          (updateFirst (matchesUserDate u today) (pullIncomeTID tid)
            s.records))).find? (matchesUserDate u today)).map (·.expenses)).getD []) = _
      rw [find?_updateFirst hp3, hf2]
      rfl
  · intro hfind
    have hfind2 : s.records.find? (matchesUserDate u today) = none := hfind
    have hnm : ∀ x ∈ s.records, matchesUserDate u today x = false := by
      intro x hx
      have := List.find?_eq_none.mp hfind2 x hx
      cases hm : matchesUserDate u today x
      · rfl
      · exact absurd hm this
    have h1 : updateFirst (matchesUserDate u today) (pullIncomeTID tid) s.records = s.records :=
      updateFirst_of_forall_neg hnm
    have h2 : updateFirst (matchesUserDate u today) (pullExpenseTID tid) s.records = s.records :=
      updateFirst_of_forall_neg hnm
    rw [C3_hdef]
    unfold recalculateTotals
    rw [h1, h2, hfind2]
    exact ⟨rfl, rfl⟩
  · intro hfind hInc hExp hTot hTr
    have hfind2 : s.records.find? (matchesUserDate u today) = some r := hfind
    have hpi : pullIncomeTID tid r = r := by
      show ({ r with incomes := r.incomes.filter (fun tx => tx.transferID != some tid) }) = r
      rw [List.filter_eq_self.mpr (fun tx htx => bne_iff_ne.mpr (hInc tx htx))]
    have hpe : pullExpenseTID tid r = r := by
      show ({ r with expenses := r.expenses.filter (fun tx => tx.transferID != some tid) }) = r
      rw [List.filter_eq_self.mpr (fun tx htx => bne_iff_ne.mpr (hExp tx htx))]
    have h1 : updateFirst (matchesUserDate u today) (pullIncomeTID tid) s.records = s.records :=
      updateFirst_eq_self_of_find? hfind2 hpi
    have h2 : updateFirst (matchesUserDate u today) (pullExpenseTID tid) s.records = s.records :=
      updateFirst_eq_self_of_find? hfind2 hpe
    have h3 : updateFirst (matchesUserDate u today) resumRecord s.records = s.records :=
      updateFirst_eq_self_of_find? hfind2 (resumRecord_eq_self hTot)
    have h4 : s.transfers.eraseP (fun tr => tr.id == tid) = s.transfers :=
      List.eraseP_of_forall_not (fun tr htr => by simp [hTr tr htr])
    rw [C3_hdef]
    unfold recalculateTotals
    rw [h1, h2, h4, hfind2, h3]

/-- Witness for C3 at a concrete input: a belt-and-braces delete of a transfer
id that no longer exists, on a state whose only record is today's (empty)
record — a no-op success. -/
theorem C3_delete_transfer_today_only_witness :
    DeleteTransfer
      { records := [{ lineID := "u1", date := "2025-01-02", incomes := [], expenses := [],
                      totalIncome := 0, totalExpense := 0 }],
        transfers := [], budgets := [], nextID := 3 } "u1" 7 "2025-01-02" =
      ({ records := [{ lineID := "u1", date := "2025-01-02", incomes := [], expenses := [],
                       totalIncome := 0, totalExpense := 0 }],
         transfers := [], budgets := [], nextID := 3 }, true) :=
  (C3_delete_transfer_today_only
    { records := [{ lineID := "u1", date := "2025-01-02", incomes := [], expenses := [],
                    totalIncome := 0, totalExpense := 0 }],
      transfers := [], budgets := [], nextID := 3 } "u1" 7 "2025-01-02"
    { lineID := "u1", date := "2025-01-02", incomes := [], expenses := [],
      totalIncome := 0, totalExpense := 0 }).2.2.2 rfl
    (by intro tx htx; simp at htx) (by intro tx htx; simp at htx)
    ⟨by simp, by simp⟩ (by intro tr htr; simp at htr)

/-- Counterexample to C3 as stated: a transfer-tagged expense sitting on a
*past* date survives `DeleteTransfer` (the pulls filter on today's date), and
the stale entry is still there afterwards. -/
theorem C3_other_date_counterexample :
    ((DeleteTransfer
      { records := [{ lineID := "u1", date := "2025-01-01", incomes := [],
                      expenses := [{ id := 2, type := -1, custName := "", amount := 20,
                                     category := "โอนเงิน", description := "", useType := 0,
                                     bankName := "", creditCardName := "",
                                     transferID := some 7 }],
                      totalIncome := 0, totalExpense := 20 },
                    { lineID := "u1", date := "2025-01-02", incomes := [], expenses := [],
                      totalIncome := 0, totalExpense := 0 }],
        transfers := [], budgets := [], nextID := 3 } "u1" 7 "2025-01-02").1.records.map
      (fun x => x.expenses.map (·.transferID))) = [[some 7], []] ∧
    (DeleteTransfer
      { records := [{ lineID := "u1", date := "2025-01-01", incomes := [],
                      expenses := [{ id := 2, type := -1, custName := "", amount := 20,
                                     category := "โอนเงิน", description := "", useType := 0,
                                     bankName := "", creditCardName := "",
                                     transferID := some 7 }],
                      totalIncome := 0, totalExpense := 20 },
                    { lineID := "u1", date := "2025-01-02", incomes := [], expenses := [],
                      totalIncome := 0, totalExpense := 0 }],
        transfers := [], budgets := [], nextID := 3 } "u1" 7 "2025-01-02").2 = true := by
  exact ⟨rfl, rfl⟩

/-- C7 (amended).  `DeleteTransaction` with an id matching no entry in
today's record: when the user's record for the current date exists (with
consistent cached totals, as in every reachable state) the call is a no-op
success — the whole ledger state is unchanged; when the user has no record
for the current date the call returns the record-not-found error from
`recalculateTotals` instead of success. -/
theorem C7_delete_nonexistent_id (s : LedgerState) (u : String) (txID : Nat)
    (today : String) (r : DailyRecord) :
    (todayRecord s u today = some r →
      (∀ tx ∈ r.incomes, tx.id ≠ txID) →
      (∀ tx ∈ r.expenses, tx.id ≠ txID) →
      TotalsOKr r →
      DeleteTransaction s u txID today = (s, true)) ∧
    (todayRecord s u today = none →
      DeleteTransaction s u txID today = (s, false)) := by
  constructor
  · intro hfind hInc _hExp hTot
    have hfind2 : s.records.find? (matchesUserDate u today) = some r := hfind
    have hA : DeleteTransaction s u txID today =
        recalculateTotals
          { s with records := updateFirst (matchesUserDate u today) (pullIncomeID txID) s.records }
          u today := by
      unfold DeleteTransaction
      rw [hfind2]
      rfl
    have hpi : pullIncomeID txID r = r := by
      show ({ r with incomes := r.incomes.filter (fun tx => tx.id != txID) }) = r
      rw [List.filter_eq_self.mpr (fun tx htx => bne_iff_ne.mpr (hInc tx htx))]
    have h1 : updateFirst (matchesUserDate u today) (pullIncomeID txID) s.records = s.records :=
      updateFirst_eq_self_of_find? hfind2 hpi
    have h3 : updateFirst (matchesUserDate u today) resumRecord s.records = s.records :=
      updateFirst_eq_self_of_find? hfind2 (resumRecord_eq_self hTot)
    rw [hA, h1]
    unfold recalculateTotals
    rw [hfind2, h3]
  · intro hfind
    have hfind2 : s.records.find? (matchesUserDate u today) = none := hfind
    have hnm : ∀ x ∈ s.records, matchesUserDate u today x = false := by
      intro x hx
      have := List.find?_eq_none.mp hfind2 x hx
      cases hm : matchesUserDate u today x
      · rfl
      · exact absurd hm this
    have h1 : updateFirst (matchesUserDate u today) (pullIncomeID txID) s.records = s.records :=
      updateFirst_of_forall_neg hnm
    have h2 : updateFirst (matchesUserDate u today) (pullExpenseID txID) s.records = s.records :=
      updateFirst_of_forall_neg hnm
    have hB : DeleteTransaction s u txID today =
        recalculateTotals
          { s with records := updateFirst (matchesUserDate u today) (pullExpenseID txID)
                                (updateFirst (matchesUserDate u today) (pullIncomeID txID) s.records) }
          u today := by
      unfold DeleteTransaction
      rw [hfind2]
      rfl
    rw [hB, h1, h2]
    unfold recalculateTotals
    rw [hfind2]

/-- Witness for C7: deleting id 99 from a state whose only record is today's
(empty) record is a no-op success. -/
theorem C7_delete_nonexistent_id_witness :
    DeleteTransaction
      { records := [{ lineID := "u1", date := "2025-01-02", incomes := [], expenses := [],
                      totalIncome := 0, totalExpense := 0 }],
        transfers := [], budgets := [], nextID := 3 } "u1" 99 "2025-01-02" =
      ({ records := [{ lineID := "u1", date := "2025-01-02", incomes := [], expenses := [],
                       totalIncome := 0, totalExpense := 0 }],
         transfers := [], budgets := [], nextID := 3 }, true) :=
  (C7_delete_nonexistent_id
    { records := [{ lineID := "u1", date := "2025-01-02", incomes := [], expenses := [],
                    totalIncome := 0, totalExpense := 0 }],
      transfers := [], budgets := [], nextID := 3 } "u1" 99 "2025-01-02"
    { lineID := "u1", date := "2025-01-02", incomes := [], expenses := [],
      totalIncome := 0, totalExpense := 0 }).1 rfl
    (by intro tx htx; simp at htx) (by intro tx htx; simp at htx)
    ⟨by simp, by simp⟩

/-- Counterexample to C7 as stated: when the user has no record for the
current date (here: only a past-dated record, whose expense id 5 is exactly
an "id for an entry on another date"), `DeleteTransaction` returns an error
(`recalculateTotals` finds no document), not success. -/
theorem C7_no_record_counterexample :
    (DeleteTransaction
      { records := [{ lineID := "u1", date := "2025-01-01", incomes := [],
                      expenses := [{ id := 5, type := -1, custName := "", amount := 20,
                                     category := "", description := "", useType := 0,
                                     bankName := "", creditCardName := "",
                                     transferID := none }],
                      totalIncome := 0, totalExpense := 20 }],
        transfers := [], budgets := [], nextID := 6 } "u1" 5 "2025-01-02").2 = false := rfl

/-! ## C6: search order of the update operations -/

theorem map_updateFirst2 {α β : Type} (key : α → β) (p : α → Bool) (f : α → α)
    (hf : ∀ x, key (f x) = key x) (l : List α) :
    (updateFirst p f l).map key = l.map key := map_updateFirst key hf l

theorem map_incomes_recalc (s : LedgerState) (u d : String) :
    (recalculateTotals s u d).1.records.map (·.incomes) = s.records.map (·.incomes) := by
  unfold recalculateTotals
  cases hf : s.records.find? (matchesUserDate u d) with
  | none => rfl
  | some r0 =>
    show (updateFirst _ resumRecord s.records).map _ = _
    rw [map_updateFirst2 (fun x : DailyRecord => x.incomes) (matchesUserDate u d)
      resumRecord (fun x => rfl)]

theorem map_expenses_recalc (s : LedgerState) (u d : String) :
    (recalculateTotals s u d).1.records.map (·.expenses) = s.records.map (·.expenses) := by
  unfold recalculateTotals
  cases hf : s.records.find? (matchesUserDate u d) with
  | none => rfl
  | some r0 =>
    show (updateFirst _ resumRecord s.records).map _ = _
    rw [map_updateFirst2 (fun x : DailyRecord => x.expenses) (matchesUserDate u d)
      resumRecord (fun x => rfl)]

/-- Formalisation of the claim's words (the documented income-before-expense
search order), to be compared with the implementation: try the income
positional update first, and only if no document matched try the expenses. -/
def claimUpdateAmountIncomeFirst (s : LedgerState) (u : String) (txID : Nat)
    (amount : ℚ) (today : String) : LedgerState × Bool :=
  let recsI := updateFirst (hasIncomeWithID u today txID)
    (setFirstIncome txID (setAmountTx amount)) s.records
  let recsE := updateFirst (hasExpenseWithID u today txID)
    (setFirstExpense txID (setAmountTx amount)) s.records
  let s1 :=
    if (s.records.find? (hasIncomeWithID u today txID)).isSome then
      { s with records := recsI }
    else
      { s with records := recsE }
  recalculateTotals s1 u today

/-- C6 (amended).  Both update operations search the *expense* list first and
fall back to the income list only when no document matched the expense
filter: whenever today's record holds a matching expense, every income list
in the database is left untouched (by the amount update and by the payment
update alike), and when no expense matches, every expense list is left
untouched. -/
theorem C6_expense_searched_first (s : LedgerState) (u : String) (txID : Nat)
    (amount : ℚ) (useType : Int) (bankName creditCardName today : String) :
    ((s.records.find? (hasExpenseWithID u today txID)).isSome = true →
      (UpdateTransactionAmount s u txID amount today).1.records.map (·.incomes) =
        s.records.map (·.incomes) ∧
      (UpdateTransactionPayment s u txID useType bankName creditCardName
        today).1.records.map (·.incomes) = s.records.map (·.incomes)) ∧
    ((s.records.find? (hasExpenseWithID u today txID)).isSome = false →
      (UpdateTransactionAmount s u txID amount today).1.records.map (·.expenses) =
        s.records.map (·.expenses) ∧
      (UpdateTransactionPayment s u txID useType bankName creditCardName
        today).1.records.map (·.expenses) = s.records.map (·.expenses)) := by
  constructor
  · intro hm
    constructor
    · have hdefA : UpdateTransactionAmount s u txID amount today =
          recalculateTotals
            { s with records := updateFirst (hasExpenseWithID u today txID) (setFirstExpense txID (setAmountTx amount)) s.records }
            u today := by
        unfold UpdateTransactionAmount
        rw [hm]
        rfl
      rw [hdefA, map_incomes_recalc]
      show (updateFirst _ _ s.records).map _ = _
      rw [map_updateFirst2 (fun x : DailyRecord => x.incomes) (hasExpenseWithID u today txID)
        (setFirstExpense txID (setAmountTx amount)) (fun x => rfl)]
    · have hdefP : (UpdateTransactionPayment s u txID useType bankName creditCardName
          today).1 =
          { s with records := updateFirst (hasExpenseWithID u today txID) (setFirstExpense txID (setPaymentTx useType bankName creditCardName)) s.records } := by
        unfold UpdateTransactionPayment
        rw [hm]
        rfl
      rw [hdefP]
      show (updateFirst _ _ s.records).map _ = _
      rw [map_updateFirst2 (fun x : DailyRecord => x.incomes) (hasExpenseWithID u today txID)
        (setFirstExpense txID (setPaymentTx useType bankName creditCardName)) (fun x => rfl)]
  · intro hm
    constructor
    · have hdefA : UpdateTransactionAmount s u txID amount today =
          recalculateTotals
            { s with records := updateFirst (hasIncomeWithID u today txID) (setFirstIncome txID (setAmountTx amount)) s.records }
            u today := by
        unfold UpdateTransactionAmount
        rw [hm]
        rfl
      rw [hdefA, map_expenses_recalc]
      show (updateFirst _ _ s.records).map _ = _
      rw [map_updateFirst2 (fun x : DailyRecord => x.expenses) (hasIncomeWithID u today txID)
        (setFirstIncome txID (setAmountTx amount)) (fun x => rfl)]
    · have hdefP : (UpdateTransactionPayment s u txID useType bankName creditCardName
          today).1 =
          { s with records := updateFirst (hasIncomeWithID u today txID) (setFirstIncome txID (setPaymentTx useType bankName creditCardName)) s.records } := by
        unfold UpdateTransactionPayment
        rw [hm]
        rfl
      rw [hdefP]
      show (updateFirst _ _ s.records).map _ = _
      rw [map_updateFirst2 (fun x : DailyRecord => x.expenses) (hasIncomeWithID u today txID)
        (setFirstIncome txID (setPaymentTx useType bankName creditCardName)) (fun x => rfl)]

/-- The record used by the C6 counterexample and witness: today holds an
income (id 1, amount 10) and an expense (id 1, amount 20) — nothing in the
store rules out an id occurring in both lists, and there the search order is
observable. -/
def c6State : LedgerState :=
  { records := [{ lineID := "u1", date := "2025-01-02",
                  incomes := [{ id := 1, type := 1, custName := "", amount := 10,
                                category := "", description := "", useType := 0,
                                bankName := "", creditCardName := "", transferID := none }],
                  expenses := [{ id := 1, type := -1, custName := "", amount := 20,
                                 category := "", description := "", useType := 0,
                                 bankName := "", creditCardName := "", transferID := none }],
                  totalIncome := 10, totalExpense := 20 }],
    transfers := [], budgets := [], nextID := 2 }

/-- Counterexample to C6 as stated: on `c6State` the implementation updates
the *expense* (the income keeps amount 10, the expense becomes 99), while the
claimed income-first order would update the income (99) and leave the expense
at 20. -/
theorem C6_income_first_counterexample :
    ((todayIncomes (UpdateTransactionAmount c6State "u1" 1 99 "2025-01-02").1
        "u1" "2025-01-02").map (·.amount) = [10] ∧
      (todayExpenses (UpdateTransactionAmount c6State "u1" 1 99 "2025-01-02").1
        "u1" "2025-01-02").map (·.amount) = [99]) ∧
    ((todayIncomes (claimUpdateAmountIncomeFirst c6State "u1" 1 99 "2025-01-02").1
        "u1" "2025-01-02").map (·.amount) = [99] ∧
      (todayExpenses (claimUpdateAmountIncomeFirst c6State "u1" 1 99 "2025-01-02").1
        "u1" "2025-01-02").map (·.amount) = [20]) :=
  ⟨⟨rfl, rfl⟩, ⟨rfl, rfl⟩⟩

/-- Witness for C6: on `c6State` (which has a matching expense) the amount
update leaves the income lists untouched. -/
theorem C6_expense_searched_first_witness :
    (UpdateTransactionAmount c6State "u1" 1 99 "2025-01-02").1.records.map (·.incomes) =
      c6State.records.map (·.incomes) ∧
    (UpdateTransactionPayment c6State "u1" 1 2 "SCB" "" "2025-01-02").1.records.map
      (·.incomes) = c6State.records.map (·.incomes) :=
  (C6_expense_searched_first c6State "u1" 1 99 2 "SCB" "" "2025-01-02").1 rfl

/-! ## C4: balance by payment method -/

/-- All entries of the user in scan order
(`allTx := append(record.Incomes, record.Expenses...)` per record). -/
def userTxs (s : LedgerState) (u : String) : List Transaction :=
  ((userRecords s u).map (fun r => r.incomes ++ r.expenses)).flatten

/-- Reading the keyed map. -/
def lookupPB (l : List (String × PaymentBalance)) (k : String) : Option PaymentBalance :=
  (l.find? (fun kv => kv.1 == k)).map (·.2)

/-- One per-group step: create-on-first-sight then accumulate. -/
def stepPB : Option PaymentBalance → Transaction → Option PaymentBalance
  | none, tx => some (applyTx (zeroPB tx) tx)
  | some pb, tx => some (applyTx pb tx)

theorem find?_updateFirst_of_ne {α : Type} (p q : α → Bool) (f : α → α)
    (hpq : ∀ x, p x = true → q x = false) (hq : ∀ x, q (f x) = q x) (l : List α) :
    (updateFirst p f l).find? q = l.find? q := by
  induction l with
  | nil => rfl
  | cons a as ih =>
    rw [updateFirst_cons]
    by_cases hpa : p a = true
    · rw [if_pos hpa]
      rw [List.find?_cons_of_neg _ (by simp [hq, hpq a hpa]),
        List.find?_cons_of_neg _ (by simp [hpq a hpa])]
    · rw [if_neg hpa]
      by_cases hqa : q a = true
      · rw [List.find?_cons_of_pos _ hqa, List.find?_cons_of_pos _ hqa]
      · rw [List.find?_cons_of_neg _ (by simpa using hqa),
          List.find?_cons_of_neg _ (by simpa using hqa), ih]

theorem updateFirst_append_left_neg {α : Type} (p : α → Bool) (f : α → α)
    {l l2 : List α} (h : ∀ y ∈ l, p y = false) :
    updateFirst p f (l ++ l2) = l ++ updateFirst p f l2 := by
  induction l with
  | nil => rfl
  | cons a as ih =>
    rw [List.cons_append, updateFirst_cons,
      if_neg (by simp [h a (List.mem_cons_self a as)]),
      ih (fun y hy => h y (List.mem_cons_of_mem a hy)), List.cons_append]

theorem find?_singleton_pos {α : Type} (p : α → Bool) (x : α) (h : p x = true) :
    List.find? p [x] = some x := by
  rw [List.find?_cons, h]

theorem pbUpdate_lookup (l : List (String × PaymentBalance)) (tx : Transaction) (k : String) :
    lookupPB (pbUpdate l tx) k =
      if paymentKey tx == k then stepPB (lookupPB l k) tx else lookupPB l k := by
  by_cases hk : paymentKey tx = k
  · subst hk
    rw [if_pos (beq_self_eq_true _)]
    simp only [pbUpdate, lookupPB]
    by_cases hp : (l.find? (fun kv => kv.1 == paymentKey tx)).isSome = true
    · obtain ⟨kv0, hkv⟩ := Option.isSome_iff_exists.mp hp
      rw [if_pos hp]
      rw [find?_updateFirst (p := fun kv : String × PaymentBalance =>
          kv.1 == paymentKey tx)
        (f := fun kv : String × PaymentBalance => (kv.1, applyTx kv.2 tx))
        (fun kv => rfl), hkv]
      rfl
    · have hnone : l.find? (fun kv => kv.1 == paymentKey tx) = none :=
        Option.not_isSome_iff_eq_none.mp hp
      rw [if_neg hp]
      have hneg : ∀ y ∈ l, (fun kv : String × PaymentBalance => kv.1 == paymentKey tx) y =
          false := by
        intro y hy
        have := List.find?_eq_none.mp hnone y hy
        cases hb : (y.1 == paymentKey tx)
        · exact hb
        · exact absurd hb this
      have hpx : ((fun kv : String × PaymentBalance => kv.1 == paymentKey tx)
          ((paymentKey tx, zeroPB tx).1, applyTx (paymentKey tx, zeroPB tx).2 tx)) = true :=
        beq_self_eq_true _
      rw [updateFirst_append_left_neg _ _ hneg, updateFirst_cons,
        if_pos (show ((paymentKey tx, zeroPB tx).1 == paymentKey tx) = true from
          beq_self_eq_true _),
        List.find?_append,
        find?_singleton_pos (fun kv : String × PaymentBalance => kv.1 == paymentKey tx)
          ((paymentKey tx, zeroPB tx).1, applyTx (paymentKey tx, zeroPB tx).2 tx) hpx,
        hnone]
      rfl
  · have hbk : (paymentKey tx == k) = false := beq_eq_false_iff_ne.mpr hk
    rw [hbk]
    simp only [Bool.false_eq_true, if_false]
    simp only [pbUpdate, lookupPB]
    have hpq : ∀ kv : String × PaymentBalance,
        (kv.1 == paymentKey tx) = true → (kv.1 == k) = false := by
      intro kv hkv
      rw [beq_iff_eq] at hkv
      exact beq_eq_false_iff_ne.mpr (hkv ▸ hk)
    by_cases hp : (l.find? (fun kv => kv.1 == paymentKey tx)).isSome = true
    · rw [if_pos hp]
      rw [find?_updateFirst_of_ne (fun kv : String × PaymentBalance =>
          kv.1 == paymentKey tx)
        (fun kv : String × PaymentBalance => kv.1 == k)
        (fun kv : String × PaymentBalance => (kv.1, applyTx kv.2 tx))
        hpq (fun kv => rfl)]
    · rw [if_neg hp]
      rw [find?_updateFirst_of_ne (fun kv : String × PaymentBalance =>
          kv.1 == paymentKey tx)
        (fun kv : String × PaymentBalance => kv.1 == k)
        (fun kv : String × PaymentBalance => (kv.1, applyTx kv.2 tx))
        hpq (fun kv => rfl)]
      rw [List.find?_append]
      have hsing : ([(paymentKey tx, zeroPB tx)].find? (fun kv => kv.1 == k)) = none := by
        rw [List.find?_eq_none]
        intro y hy
        rw [List.mem_singleton.mp hy]
        simp [beq_eq_false_iff_ne.mpr hk]
      rw [hsing, Option.or_none]

theorem buildPB_lookup :
    ∀ (txs : List Transaction) (l : List (String × PaymentBalance)) (k : String),
      lookupPB (txs.foldl pbUpdate l) k =
        (txs.filter (fun tx => paymentKey tx == k)).foldl stepPB (lookupPB l k) := by
  intro txs
  induction txs with
  | nil => intro l k; rfl
  | cons tx rest ih =>
    intro l k
    rw [List.foldl_cons, ih, pbUpdate_lookup]
    by_cases hk : (paymentKey tx == k) = true
    · have hfc : (tx :: rest).filter (fun t => paymentKey t == k) =
          tx :: rest.filter (fun t => paymentKey t == k) := by
        simp [List.filter_cons, hk]
      rw [if_pos hk, hfc, List.foldl_cons]
    · have hfc : (tx :: rest).filter (fun t => paymentKey t == k) =
          rest.filter (fun t => paymentKey t == k) := by
        simp [List.filter_cons, hk]
      rw [if_neg (by simpa using hk), hfc]

theorem foldl_stepPB_some :
    ∀ (g : List Transaction) (pb : PaymentBalance),
      g.foldl stepPB (some pb) = some (g.foldl applyTx pb) := by
  intro g
  induction g with
  | nil => intro pb; rfl
  | cons a as ih => intro pb; rw [List.foldl_cons, List.foldl_cons]; exact ih _

theorem foldl_applyTx_char :
    ∀ (g : List Transaction) (pb : PaymentBalance),
      (g.foldl applyTx pb).useType = pb.useType ∧
      (g.foldl applyTx pb).bankName = pb.bankName ∧
      (g.foldl applyTx pb).creditCardName = pb.creditCardName ∧
      (g.foldl applyTx pb).totalIncome =
        pb.totalIncome + ((g.filter (fun tx => tx.type == 1)).map (·.amount)).sum ∧
      (g.foldl applyTx pb).totalExpense =
        pb.totalExpense + ((g.filter (fun tx => !(tx.type == 1))).map (·.amount)).sum ∧
      (g.foldl applyTx pb).balance =
        pb.balance + (g.map (fun tx => tx.amount * (tx.type : ℚ))).sum := by
  intro g
  induction g with
  | nil => intro pb; refine ⟨rfl, rfl, rfl, by simp, by simp, by simp⟩
  | cons a as ih =>
    intro pb
    obtain ⟨i1, i2, i3, i4, i5, i6⟩ := ih (applyTx pb a)
    have hfields : (applyTx pb a).useType = pb.useType ∧
        (applyTx pb a).bankName = pb.bankName ∧
        (applyTx pb a).creditCardName = pb.creditCardName ∧
        (applyTx pb a).totalIncome =
          pb.totalIncome + (if a.type == 1 then a.amount else 0) ∧
        (applyTx pb a).totalExpense =
          pb.totalExpense + (if a.type == 1 then 0 else a.amount) ∧
        (applyTx pb a).balance = pb.balance + a.amount * (a.type : ℚ) := by
      unfold applyTx
      by_cases ht : a.type = 1
      · have hbt : (a.type == 1) = true := beq_iff_eq.mpr ht
        refine ⟨by rw [if_pos ht], by rw [if_pos ht], by rw [if_pos ht], ?_, ?_, ?_⟩ <;>
          rw [if_pos ht] <;> simp [hbt]
      · have hbt : (a.type == 1) = false := beq_eq_false_iff_ne.mpr ht
        refine ⟨by rw [if_neg ht], by rw [if_neg ht], by rw [if_neg ht], ?_, ?_, ?_⟩ <;>
          rw [if_neg ht] <;> simp [hbt]
    obtain ⟨f1, f2, f3, f4, f5, f6⟩ := hfields
    rw [List.foldl_cons]
    refine ⟨by rw [i1, f1], by rw [i2, f2], by rw [i3, f3], ?_, ?_, ?_⟩
    · rw [i4, f4]
      by_cases hbt : (a.type == 1) = true
      · have hfI : (a :: as).filter (fun tx => tx.type == 1) =
            a :: as.filter (fun tx => tx.type == 1) := by
          simp [List.filter_cons, hbt]
        rw [hfI, if_pos hbt, List.map_cons, List.sum_cons]
        ring
      · have hbf : (a.type == 1) = false := by simpa using hbt
        have hfI : (a :: as).filter (fun tx => tx.type == 1) =
            as.filter (fun tx => tx.type == 1) := by
          simp [List.filter_cons, hbf]
        rw [hfI, if_neg (by simp [hbf])]
        ring
    · rw [i5, f5]
      by_cases hbt : (a.type == 1) = true
      · have hfE : (a :: as).filter (fun tx => !(tx.type == 1)) =
            as.filter (fun tx => !(tx.type == 1)) := by
          simp [List.filter_cons, hbt]
        rw [hfE, if_pos hbt]
        ring
      · have hbf : (a.type == 1) = false := by simpa using hbt
        have hfE : (a :: as).filter (fun tx => !(tx.type == 1)) =
            a :: as.filter (fun tx => !(tx.type == 1)) := by
          simp [List.filter_cons, hbf]
        rw [hfE, if_neg (by simp [hbf]), List.map_cons, List.sum_cons]
        ring
    · rw [i6, f6]
      simp only [List.map_cons, List.sum_cons]
      ring

theorem recordsPBFold :
    ∀ (rs : List DailyRecord) (l : List (String × PaymentBalance)),
      rs.foldl (fun l r => (r.incomes ++ r.expenses).foldl pbUpdate l) l =
        ((rs.map (fun r => r.incomes ++ r.expenses)).flatten).foldl pbUpdate l := by
  intro rs
  induction rs with
  | nil => intro l; rfl
  | cons r rest ih =>
    intro l
    rw [List.foldl_cons, ih]
    simp only [List.map_cons, List.flatten_cons, List.foldl_append]

theorem GetBalanceByPaymentType_eq (s : LedgerState) (u : String) :
    GetBalanceByPaymentType s u = (userTxs s u).foldl pbUpdate [] :=
  recordsPBFold (userRecords s u) []

/-- C4 (amended).  `GetBalanceByPaymentType` scans all of the user's entries
(transfer-generated included, there is no category filter) grouped by the
string key `useType:bankName:creditCardName`: a key is absent from the result
exactly when no entry carries it; and otherwise the key's group carries the
method fields of the group's first entry, `totalIncome` the sum of the
group's sign `+1` amounts, `totalExpense` the sum of the other amounts, and
`netBalance = Σ amount * sign` over the group. -/
theorem C4_payment_grouping (s : LedgerState) (u k : String) :
    ((userTxs s u).filter (fun tx => paymentKey tx == k) = [] →
      lookupPB (GetBalanceByPaymentType s u) k = none) ∧
    (∀ (h0 : Transaction) (hs : List Transaction),
      (userTxs s u).filter (fun tx => paymentKey tx == k) = h0 :: hs →
      ∃ pb, lookupPB (GetBalanceByPaymentType s u) k = some pb ∧
        pb.useType = h0.useType ∧ pb.bankName = h0.bankName ∧
        pb.creditCardName = h0.creditCardName ∧
        pb.totalIncome = ((((userTxs s u).filter (fun tx => paymentKey tx == k)).filter
          (fun tx => tx.type == 1)).map (·.amount)).sum ∧
        pb.totalExpense = ((((userTxs s u).filter (fun tx => paymentKey tx == k)).filter
          (fun tx => !(tx.type == 1))).map (·.amount)).sum ∧
        pb.balance = (((userTxs s u).filter (fun tx => paymentKey tx == k)).map
          (fun tx => tx.amount * (tx.type : ℚ))).sum) := by
  constructor
  · intro hempty
    rw [GetBalanceByPaymentType_eq, buildPB_lookup, hempty]
    rfl
  · intro h0 hs hfilter
    rw [GetBalanceByPaymentType_eq, buildPB_lookup, hfilter]
    obtain ⟨u1, u2, u3, u4, u5, u6⟩ := foldl_applyTx_char (h0 :: hs) (zeroPB h0)
    refine ⟨(h0 :: hs).foldl applyTx (zeroPB h0), ?_, ?_, ?_, ?_, ?_, ?_, ?_⟩
    · show hs.foldl stepPB (some (applyTx (zeroPB h0) h0)) =
        some (hs.foldl applyTx (applyTx (zeroPB h0) h0))
      exact foldl_stepPB_some hs _
    · exact u1
    · exact u2
    · exact u3
    · rw [u4]; exact zero_add _
    · rw [u5]; exact zero_add _
    · rw [u6]; exact zero_add _

/-- Two entries with the SAME joined key `1:a:b:c` but DIFFERENT
(method, sub-identifier) pairs. -/
def c4cTx1 : Transaction :=
  { id := 1, type := 1, custName := "", amount := 5, category := "x",
    description := "", useType := 1, bankName := "a:b", creditCardName := "c",
    transferID := none }

def c4cTx2 : Transaction :=
  { id := 2, type := 1, custName := "", amount := 7, category := "x",
    description := "", useType := 1, bankName := "a", creditCardName := "b:c",
    transferID := none }

def c4cRec : DailyRecord :=
  { lineID := "u1", date := "2025-01-02", incomes := [c4cTx1, c4cTx2], expenses := [],
    totalIncome := 12, totalExpense := 0 }

def c4cState : LedgerState :=
  { records := [c4cRec], transfers := [], budgets := [], nextID := 3 }

/-- Counterexample to C4 as stated: the code keys groups by the joined string
`"%d:%s:%s"`, not by the (method, sub-identifier) pair.  Bank `a:b` card `c`
and bank `a` card `b:c` are distinct pairs (pair-grouping would yield two
groups) yet the code merges them into one group under the key `1:a:b:c`. -/
theorem C4_colon_key_counterexample :
    (GetBalanceByPaymentType c4cState "u1").length = 1 ∧
    ((userTxs c4cState "u1").map
      (fun tx => (tx.bankName, tx.creditCardName))).dedup.length = 2 :=
  ⟨rfl, by decide⟩

def c4wTx : Transaction :=
  { id := 1, type := 1, custName := "", amount := 5, category := "x",
    description := "", useType := 2, bankName := "b", creditCardName := "c",
    transferID := none }

def c4wRec : DailyRecord :=
  { lineID := "u1", date := "2025-01-02", incomes := [c4wTx], expenses := [],
    totalIncome := 5, totalExpense := 0 }

def c4wState : LedgerState :=
  { records := [c4wRec], transfers := [], budgets := [], nextID := 2 }

/-- Witness: C4_payment_grouping applied at a one-entry state. -/
theorem C4_payment_grouping_witness :
    ∃ pb, lookupPB (GetBalanceByPaymentType c4wState "u1") "2:b:c" = some pb ∧
      pb.useType = c4wTx.useType ∧ pb.bankName = c4wTx.bankName ∧
      pb.creditCardName = c4wTx.creditCardName ∧
      pb.totalIncome = ((((userTxs c4wState "u1").filter
        (fun tx => paymentKey tx == "2:b:c")).filter
        (fun tx => tx.type == 1)).map (·.amount)).sum ∧
      pb.totalExpense = ((((userTxs c4wState "u1").filter
        (fun tx => paymentKey tx == "2:b:c")).filter
        (fun tx => !(tx.type == 1))).map (·.amount)).sum ∧
      pb.balance = (((userTxs c4wState "u1").filter
        (fun tx => paymentKey tx == "2:b:c")).map
        (fun tx => tx.amount * (tx.type : ℚ))).sum :=
  (C4_payment_grouping c4wState "u1" "2:b:c").2 c4wTx [] (by rfl)

/-! ## C8: keyword search and date-range search -/

theorem strLeb_refl : ∀ l : List Char, strLeb l l = true := by
  intro l
  induction l with
  | nil => rfl
  | cons a as ih =>
    simp only [strLeb]
    rw [if_neg (lt_irrefl a), if_neg (lt_irrefl a)]
    exact ih

theorem dateLE_refl (a : String) : dateLE a a = true := strLeb_refl a.data

theorem pairwise_of_const_date {l : List SearchResult} {d : String}
    (h : ∀ res ∈ l, res.date = d) :
    l.Pairwise (fun a b => dateLE b.date a.date = true) := by
  induction l with
  | nil => exact List.Pairwise.nil
  | cons x xs ih =>
    refine List.Pairwise.cons ?_ (ih (fun res hres => h res (List.mem_cons_of_mem x hres)))
    intro y hy
    rw [h y (List.mem_cons_of_mem x hy), h x (List.mem_cons_self x xs)]
    exact dateLE_refl d

theorem searchTxLoop_spec (kw : String) (lim : Int) (d : String) :
    ∀ (txs : List Transaction) (acc : List SearchResult),
      ∃ ext, searchTxLoop kw lim d txs acc = acc ++ ext ∧
        ∀ res ∈ ext, matchesKeyword res.transaction kw = true ∧ res.date = d ∧
          res.transaction ∈ txs := by
  intro txs
  induction txs with
  | nil =>
    intro acc
    exact ⟨[], (List.append_nil acc).symm, by simp⟩
  | cons tx rest ih =>
    intro acc
    by_cases hm : matchesKeyword tx kw = true
    · by_cases hl : ((acc ++ [({ transaction := tx, date := d } : SearchResult)]).length : Int) ≥ lim
      · refine ⟨[{ transaction := tx, date := d }], ?_, ?_⟩
        · simp only [searchTxLoop]
          rw [if_pos hm, if_pos hl]
        · intro res hres
          rw [List.mem_singleton.mp hres]
          exact ⟨hm, rfl, List.mem_cons_self tx rest⟩
      · obtain ⟨ext, he, hprops⟩ := ih (acc ++ [({ transaction := tx, date := d } : SearchResult)])
        refine ⟨{ transaction := tx, date := d } :: ext, ?_, ?_⟩
        · simp only [searchTxLoop]
          rw [if_pos hm, if_neg hl, he, List.append_assoc]
          rfl
        · intro res hres
          rcases List.mem_cons.mp hres with h1 | h1
          · rw [h1]
            exact ⟨hm, rfl, List.mem_cons_self tx rest⟩
          · obtain ⟨p1, p2, p3⟩ := hprops res h1
            exact ⟨p1, p2, List.mem_cons_of_mem tx p3⟩
    · obtain ⟨ext, he, hprops⟩ := ih acc
      refine ⟨ext, ?_, ?_⟩
      · simp only [searchTxLoop]
        rw [if_neg hm]
        exact he
      · intro res hres
        obtain ⟨p1, p2, p3⟩ := hprops res hres
        exact ⟨p1, p2, List.mem_cons_of_mem tx p3⟩

theorem searchTxLoop_cap_lt (kw : String) (lim : Int) (d : String) :
    ∀ (txs : List Transaction) (acc : List SearchResult),
      (acc.length : Int) < lim →
      ((searchTxLoop kw lim d txs acc).length : Int) ≤ lim := by
  intro txs
  induction txs with
  | nil =>
    intro acc h
    exact le_of_lt h
  | cons tx rest ih =>
    intro acc h
    by_cases hm : matchesKeyword tx kw = true
    · by_cases hl : ((acc ++ [({ transaction := tx, date := d } : SearchResult)]).length : Int) ≥ lim
      · simp only [searchTxLoop]
        rw [if_pos hm, if_pos hl]
        simp only [List.length_append, List.length_singleton]
        push_cast
        omega
      · simp only [searchTxLoop]
        rw [if_pos hm, if_neg hl]
        apply ih
        push_neg at hl
        exact hl
    · simp only [searchTxLoop]
      rw [if_neg hm]
      exact ih acc h

theorem searchTxLoop_cap_le (kw : String) (lim : Int) (d : String) :
    ∀ (txs : List Transaction) (acc : List SearchResult),
      (acc.length : Int) ≤ lim →
      ((searchTxLoop kw lim d txs acc).length : Int) ≤ lim + 1 := by
  intro txs
  induction txs with
  | nil =>
    intro acc h
    show ((acc.length : Int)) ≤ lim + 1
    omega
  | cons tx rest ih =>
    intro acc h
    by_cases hm : matchesKeyword tx kw = true
    · by_cases hl : ((acc ++ [({ transaction := tx, date := d } : SearchResult)]).length : Int) ≥ lim
      · simp only [searchTxLoop]
        rw [if_pos hm, if_pos hl]
        simp only [List.length_append, List.length_singleton]
        push_cast
        omega
      · simp only [searchTxLoop]
        rw [if_pos hm, if_neg hl]
        push_neg at hl
        exact le_trans (searchTxLoop_cap_lt kw lim d rest _ hl) (by omega)
    · simp only [searchTxLoop]
      rw [if_neg hm]
      exact ih acc h

theorem searchRecordsLoop_spec (kw : String) (lim : Int) :
    ∀ (rs : List DailyRecord) (acc : List SearchResult),
      ∃ ext, searchRecordsLoop kw lim rs acc = acc ++ ext ∧
        ∀ res ∈ ext, matchesKeyword res.transaction kw = true ∧
          ∃ r ∈ rs, res.date = r.date ∧
            (res.transaction ∈ r.incomes ∨ res.transaction ∈ r.expenses) := by
  intro rs
  induction rs with
  | nil =>
    intro acc
    exact ⟨[], (List.append_nil acc).symm, by simp⟩
  | cons r rest ih =>
    intro acc
    obtain ⟨e1, he1, hp1⟩ := searchTxLoop_spec kw lim r.date r.incomes acc
    obtain ⟨e2, he2, hp2⟩ := searchTxLoop_spec kw lim r.date r.expenses
      (searchTxLoop kw lim r.date r.incomes acc)
    by_cases hstop : ((searchTxLoop kw lim r.date r.expenses
        (searchTxLoop kw lim r.date r.incomes acc)).length : Int) ≥ lim
    · refine ⟨e1 ++ e2, ?_, ?_⟩
      · simp only [searchRecordsLoop]
        rw [if_pos hstop, he2, he1, List.append_assoc]
      · intro res hres
        rcases List.mem_append.mp hres with h1 | h1
        · obtain ⟨p1, p2, p3⟩ := hp1 res h1
          exact ⟨p1, r, List.mem_cons_self r rest, p2, Or.inl p3⟩
        · obtain ⟨p1, p2, p3⟩ := hp2 res h1
          exact ⟨p1, r, List.mem_cons_self r rest, p2, Or.inr p3⟩
    · obtain ⟨e3, he3, hp3⟩ := ih (searchTxLoop kw lim r.date r.expenses
        (searchTxLoop kw lim r.date r.incomes acc))
      refine ⟨e1 ++ e2 ++ e3, ?_, ?_⟩
      · simp only [searchRecordsLoop]
        rw [if_neg hstop, he3, he2, he1]
        simp [List.append_assoc]
      · intro res hres
        rcases List.mem_append.mp hres with h12 | h3
        · rcases List.mem_append.mp h12 with h1 | h1
          · obtain ⟨p1, p2, p3⟩ := hp1 res h1
            exact ⟨p1, r, List.mem_cons_self r rest, p2, Or.inl p3⟩
          · obtain ⟨p1, p2, p3⟩ := hp2 res h1
            exact ⟨p1, r, List.mem_cons_self r rest, p2, Or.inr p3⟩
        · obtain ⟨p1, r', hr', p2, p3⟩ := hp3 res h3
          exact ⟨p1, r', List.mem_cons_of_mem r hr', p2, p3⟩

theorem searchRecordsLoop_sorted (kw : String) (lim : Int) :
    ∀ (rs : List DailyRecord) (acc : List SearchResult),
      rs.Pairwise (fun a b => dateLE b.date a.date = true) →
      acc.Pairwise (fun a b => dateLE b.date a.date = true) →
      (∀ res ∈ acc, ∀ r ∈ rs, dateLE r.date res.date = true) →
      (searchRecordsLoop kw lim rs acc).Pairwise
        (fun a b => dateLE b.date a.date = true) := by
  intro rs
  induction rs with
  | nil =>
    intro acc _ hacc _
    exact hacc
  | cons r rest ih =>
    intro acc hsor hacc hcross
    obtain ⟨e1, he1, hp1⟩ := searchTxLoop_spec kw lim r.date r.incomes acc
    obtain ⟨e2, he2, hp2⟩ := searchTxLoop_spec kw lim r.date r.expenses
      (searchTxLoop kw lim r.date r.incomes acc)
    have ha2 : searchTxLoop kw lim r.date r.expenses
        (searchTxLoop kw lim r.date r.incomes acc) = acc ++ (e1 ++ e2) := by
      rw [he2, he1, List.append_assoc]
    have hdates : ∀ res ∈ e1 ++ e2, res.date = r.date := by
      intro res hres
      rcases List.mem_append.mp hres with h1 | h1
      · exact (hp1 res h1).2.1
      · exact (hp2 res h1).2.1
    have hsor' := List.pairwise_cons.mp hsor
    have ha2p : (acc ++ (e1 ++ e2)).Pairwise (fun a b => dateLE b.date a.date = true) := by
      rw [List.pairwise_append]
      refine ⟨hacc, pairwise_of_const_date hdates, ?_⟩
      intro a ha b hb
      rw [hdates b hb]
      exact hcross a ha r (List.mem_cons_self r rest)
    by_cases hstop : ((searchTxLoop kw lim r.date r.expenses
        (searchTxLoop kw lim r.date r.incomes acc)).length : Int) ≥ lim
    · simp only [searchRecordsLoop]
      rw [if_pos hstop, ha2]
      exact ha2p
    · simp only [searchRecordsLoop]
      rw [if_neg hstop, ha2]
      apply ih
      · exact hsor'.2
      · exact ha2p
      · intro res hres r' hr'
        rcases List.mem_append.mp hres with h1 | h1
        · exact hcross res h1 r' (List.mem_cons_of_mem r hr')
        · rw [hdates res h1]
          exact hsor'.1 r' hr'

theorem searchRecordsLoop_cap (kw : String) (lim : Int) :
    ∀ (rs : List DailyRecord) (acc : List SearchResult),
      (acc.length : Int) < lim →
      ((searchRecordsLoop kw lim rs acc).length : Int) ≤ lim + 1 := by
  intro rs
  induction rs with
  | nil =>
    intro acc h
    show ((acc.length : Int)) ≤ lim + 1
    omega
  | cons r rest ih =>
    intro acc h
    have h1 : ((searchTxLoop kw lim r.date r.incomes acc).length : Int) ≤ lim :=
      searchTxLoop_cap_lt kw lim r.date r.incomes acc h
    have h2 : ((searchTxLoop kw lim r.date r.expenses
        (searchTxLoop kw lim r.date r.incomes acc)).length : Int) ≤ lim + 1 :=
      searchTxLoop_cap_le kw lim r.date r.expenses _ h1
    by_cases hstop : ((searchTxLoop kw lim r.date r.expenses
        (searchTxLoop kw lim r.date r.incomes acc)).length : Int) ≥ lim
    · simp only [searchRecordsLoop]
      rw [if_pos hstop]
      exact h2
    · simp only [searchRecordsLoop]
      rw [if_neg hstop]
      apply ih
      push_neg at hstop
      exact hstop

theorem dateRangeLoop_spec (lim : Int) :
    ∀ (rs : List DailyRecord) (acc : List SearchResult),
      ∃ ext, dateRangeLoop lim rs acc = acc ++ ext ∧
        ∀ res ∈ ext, ∃ r ∈ rs, res.date = r.date ∧
          (res.transaction ∈ r.incomes ∨ res.transaction ∈ r.expenses) := by
  intro rs
  induction rs with
  | nil =>
    intro acc
    exact ⟨[], (List.append_nil acc).symm, by simp⟩
  | cons r rest ih =>
    intro acc
    have hblk : ∀ res ∈ (r.incomes.map (fun tx =>
          ({ transaction := tx, date := r.date } : SearchResult)) ++
        r.expenses.map (fun tx => ({ transaction := tx, date := r.date } : SearchResult))),
        res.date = r.date ∧ (res.transaction ∈ r.incomes ∨ res.transaction ∈ r.expenses) := by
      intro res hres
      rcases List.mem_append.mp hres with h1 | h1
      · obtain ⟨tx, htx, heq⟩ := List.mem_map.mp h1
        subst heq
        exact ⟨rfl, Or.inl htx⟩
      · obtain ⟨tx, htx, heq⟩ := List.mem_map.mp h1
        subst heq
        exact ⟨rfl, Or.inr htx⟩
    by_cases hstop : ((acc ++ r.incomes.map (fun tx =>
          ({ transaction := tx, date := r.date } : SearchResult)) ++
        r.expenses.map (fun tx =>
          ({ transaction := tx, date := r.date } : SearchResult))).length : Int) ≥ lim
    · refine ⟨r.incomes.map (fun tx => ({ transaction := tx, date := r.date } :
          SearchResult)) ++
        r.expenses.map (fun tx => ({ transaction := tx, date := r.date } : SearchResult)),
        ?_, ?_⟩
      · simp only [dateRangeLoop]
        rw [if_pos hstop, List.append_assoc]
      · intro res hres
        obtain ⟨p1, p2⟩ := hblk res hres
        exact ⟨r, List.mem_cons_self r rest, p1, p2⟩
    · obtain ⟨e3, he3, hp3⟩ := ih (acc ++ r.incomes.map (fun tx =>
          ({ transaction := tx, date := r.date } : SearchResult)) ++
        r.expenses.map (fun tx => ({ transaction := tx, date := r.date } : SearchResult)))
      refine ⟨(r.incomes.map (fun tx => ({ transaction := tx, date := r.date } :
          SearchResult)) ++
        r.expenses.map (fun tx => ({ transaction := tx, date := r.date } : SearchResult))) ++
        e3, ?_, ?_⟩
      · simp only [dateRangeLoop]
        rw [if_neg hstop, he3]
        simp [List.append_assoc]
      · intro res hres
        rcases List.mem_append.mp hres with h12 | h3
        · obtain ⟨p1, p2⟩ := hblk res h12
          exact ⟨r, List.mem_cons_self r rest, p1, p2⟩
        · obtain ⟨r', hr', p2, p3⟩ := hp3 res h3
          exact ⟨r', List.mem_cons_of_mem r hr', p2, p3⟩

theorem dateRangeLoop_sorted (lim : Int) :
    ∀ (rs : List DailyRecord) (acc : List SearchResult),
      rs.Pairwise (fun a b => dateLE b.date a.date = true) →
      acc.Pairwise (fun a b => dateLE b.date a.date = true) →
      (∀ res ∈ acc, ∀ r ∈ rs, dateLE r.date res.date = true) →
      (dateRangeLoop lim rs acc).Pairwise (fun a b => dateLE b.date a.date = true) := by
  intro rs
  induction rs with
  | nil =>
    intro acc _ hacc _
    exact hacc
  | cons r rest ih =>
    intro acc hsor hacc hcross
    have hblk : ∀ res ∈ (r.incomes.map (fun tx =>
          ({ transaction := tx, date := r.date } : SearchResult)) ++
        r.expenses.map (fun tx => ({ transaction := tx, date := r.date } : SearchResult))),
        res.date = r.date := by
      intro res hres
      rcases List.mem_append.mp hres with h1 | h1
      · obtain ⟨tx, htx, heq⟩ := List.mem_map.mp h1
        subst heq
        rfl
      · obtain ⟨tx, htx, heq⟩ := List.mem_map.mp h1
        subst heq
        rfl
    have hsor' := List.pairwise_cons.mp hsor
    have ha1p : (acc ++ (r.incomes.map (fun tx =>
          ({ transaction := tx, date := r.date } : SearchResult)) ++
        r.expenses.map (fun tx =>
          ({ transaction := tx, date := r.date } : SearchResult)))).Pairwise
        (fun a b => dateLE b.date a.date = true) := by
      rw [List.pairwise_append]
      refine ⟨hacc, pairwise_of_const_date hblk, ?_⟩
      intro a ha b hb
      rw [hblk b hb]
      exact hcross a ha r (List.mem_cons_self r rest)
    by_cases hstop : ((acc ++ r.incomes.map (fun tx =>
          ({ transaction := tx, date := r.date } : SearchResult)) ++
        r.expenses.map (fun tx =>
          ({ transaction := tx, date := r.date } : SearchResult))).length : Int) ≥ lim
    · simp only [dateRangeLoop]
      rw [if_pos hstop, List.append_assoc]
      exact ha1p
    · simp only [dateRangeLoop]
      rw [if_neg hstop, List.append_assoc]
      apply ih
      · exact hsor'.2
      · exact ha1p
      · intro res hres r' hr'
        rcases List.mem_append.mp hres with h1 | h1
        · exact hcross res h1 r' (List.mem_cons_of_mem r hr')
        · rw [hblk res h1]
          exact hsor'.1 r' hr'

theorem dateRangeLoop_cap (lim K : Int) (hK0 : 0 ≤ K) :
    ∀ (rs : List DailyRecord) (acc : List SearchResult),
      (acc.length : Int) < lim →
      (∀ r ∈ rs, ((r.incomes.length : Int) + (r.expenses.length : Int)) ≤ K) →
      ((dateRangeLoop lim rs acc).length : Int) ≤ lim - 1 + K := by
  intro rs
  induction rs with
  | nil =>
    intro acc h _
    show ((acc.length : Int)) ≤ lim - 1 + K
    omega
  | cons r rest ih =>
    intro acc h hK
    have hKr := hK r (List.mem_cons_self r rest)
    by_cases hstop : ((acc ++ r.incomes.map (fun tx =>
          ({ transaction := tx, date := r.date } : SearchResult)) ++
        r.expenses.map (fun tx =>
          ({ transaction := tx, date := r.date } : SearchResult))).length : Int) ≥ lim
    · simp only [dateRangeLoop]
      rw [if_pos hstop]
      simp only [List.length_append, List.length_map]
      push_cast
      omega
    · simp only [dateRangeLoop]
      rw [if_neg hstop]
      refine ih _ ?_ (fun r' hr' => hK r' (List.mem_cons_of_mem r hr'))
      push_neg at hstop
      exact hstop

/-- C8 (amended).  Over any descending-by-date record stream (the Mongo sort),
keyword search returns only keyword matches drawn from the stream's entries,
newest date first, with AT MOST `limit + 1` results (one expense can slip in
after the incomes of the final record reach the limit); date-range search
returns entries of in-range records, newest date first, with at most
`limit - 1 + K` results where `K` bounds the per-record entry count (the
whole final record is appended before the limit is consulted).  Neither
function honours `limit` exactly as the claim states. -/
theorem C8_search_contracts (kw sd ed : String) (limit K : Int)
    (rs rs2 : List DailyRecord)
    (hsorted : rs.Pairwise (fun a b => dateLE b.date a.date = true))
    (hsorted2 : rs2.Pairwise (fun a b => dateLE b.date a.date = true))
    (hrange : ∀ r ∈ rs2, dateLE sd r.date = true ∧ dateLE r.date ed = true)
    (hK : ∀ r ∈ rs2, ((r.incomes.length : Int) + (r.expenses.length : Int)) ≤ K)
    (hK0 : 0 ≤ K) (hlim : 1 ≤ limit) :
    (∀ res ∈ SearchTransactions rs kw limit,
      matchesKeyword res.transaction kw = true ∧
      ∃ r ∈ rs, res.date = r.date ∧
        (res.transaction ∈ r.incomes ∨ res.transaction ∈ r.expenses)) ∧
    ((SearchTransactions rs kw limit).length : Int) ≤ limit + 1 ∧
    (SearchTransactions rs kw limit).Pairwise (fun a b => dateLE b.date a.date = true) ∧
    (∀ res ∈ SearchByDateRange rs2 limit,
      dateLE sd res.date = true ∧ dateLE res.date ed = true ∧
      ∃ r ∈ rs2, res.date = r.date ∧
        (res.transaction ∈ r.incomes ∨ res.transaction ∈ r.expenses)) ∧
    (SearchByDateRange rs2 limit).Pairwise (fun a b => dateLE b.date a.date = true) ∧
    ((SearchByDateRange rs2 limit).length : Int) ≤ limit - 1 + K := by
  have hnl : ¬ (limit ≤ 0) := by omega
  have hS : SearchTransactions rs kw limit = searchRecordsLoop kw limit rs [] := by
    simp only [SearchTransactions, if_neg hnl]
  have hD : SearchByDateRange rs2 limit = dateRangeLoop limit rs2 [] := by
    simp only [SearchByDateRange, if_neg hnl]
  have h0 : ((([] : List SearchResult).length : Int)) < limit := by
    simp only [List.length_nil, Nat.cast_zero]
    omega
  obtain ⟨e, he, hp⟩ := searchRecordsLoop_spec kw limit rs []
  obtain ⟨e2, he2, hp2⟩ := dateRangeLoop_spec limit rs2 []
  refine ⟨?_, ?_, ?_, ?_, ?_, ?_⟩
  · intro res hres
    rw [hS, he] at hres
    exact hp res (by simpa using hres)
  · rw [hS]
    exact searchRecordsLoop_cap kw limit rs [] h0
  · rw [hS]
    exact searchRecordsLoop_sorted kw limit rs [] hsorted List.Pairwise.nil (by simp)
  · intro res hres
    rw [hD, he2] at hres
    obtain ⟨r, hr, hdate, hmem⟩ := hp2 res (by simpa using hres)
    obtain ⟨hg, hl⟩ := hrange r hr
    exact ⟨by rw [hdate]; exact hg, by rw [hdate]; exact hl, r, hr, hdate, hmem⟩
  · rw [hD]
    exact dateRangeLoop_sorted limit rs2 [] hsorted2 List.Pairwise.nil (by simp)
  · rw [hD]
    exact dateRangeLoop_cap limit K hK0 rs2 [] h0 hK

def c8cTx1 : Transaction :=
  { id := 1, type := 1, custName := "", amount := 3, category := "x",
    description := "", useType := 1, bankName := "", creditCardName := "",
    transferID := none }

def c8cTx2 : Transaction :=
  { id := 2, type := -1, custName := "", amount := 4, category := "x",
    description := "", useType := 1, bankName := "", creditCardName := "",
    transferID := none }

def c8cRec : DailyRecord :=
  { lineID := "u1", date := "2025-01-02", incomes := [c8cTx1], expenses := [c8cTx2],
    totalIncome := 3, totalExpense := 4 }

/-- Counterexample to C8 as stated: with `limit = 1`, both searches return TWO
results on a record holding one matching income and one matching expense —
the append happens before the limit check, so "at most limit results" is
false for both functions. -/
theorem C8_limit_overshoot_counterexample :
    (SearchByDateRange [c8cRec] 1).length = 2 ∧
    (SearchTransactions [c8cRec] "x" 1).length = 2 :=
  ⟨rfl, rfl⟩

def c8wTx : Transaction :=
  { id := 1, type := 1, custName := "m", amount := 2, category := "c",
    description := "d", useType := 1, bankName := "", creditCardName := "",
    transferID := none }

def c8wRec : DailyRecord :=
  { lineID := "u1", date := "2025-06-15", incomes := [c8wTx], expenses := [],
    totalIncome := 2, totalExpense := 0 }

/-- Witness: C8_search_contracts applied to a one-record stream. -/
theorem C8_search_contracts_witness :
    (∀ res ∈ SearchTransactions [c8wRec] "d" 1,
      matchesKeyword res.transaction "d" = true ∧
      ∃ r ∈ [c8wRec], res.date = r.date ∧
        (res.transaction ∈ r.incomes ∨ res.transaction ∈ r.expenses)) ∧
    ((SearchTransactions [c8wRec] "d" 1).length : Int) ≤ 1 + 1 ∧
    (SearchTransactions [c8wRec] "d" 1).Pairwise
      (fun a b => dateLE b.date a.date = true) ∧
    (∀ res ∈ SearchByDateRange [c8wRec] 1,
      dateLE "2025-01-01" res.date = true ∧ dateLE res.date "2025-12-31" = true ∧
      ∃ r ∈ [c8wRec], res.date = r.date ∧
        (res.transaction ∈ r.incomes ∨ res.transaction ∈ r.expenses)) ∧
    (SearchByDateRange [c8wRec] 1).Pairwise
      (fun a b => dateLE b.date a.date = true) ∧
    ((SearchByDateRange [c8wRec] 1).length : Int) ≤ 1 - 1 + 1 :=
  C8_search_contracts "d" "2025-01-01" "2025-12-31" 1 1 [c8wRec] [c8wRec]
    (by simp) (by simp)
    (fun r hr => by rw [List.mem_singleton.mp hr]; exact ⟨by decide, by decide⟩)
    (fun r hr => by rw [List.mem_singleton.mp hr]; decide)
    (by decide) (by decide)

end SataSatang
